import Mathlib

/-!
Verification of the fashion recommendation engine
(`backend/fashion-service`): a shallow embedding of
`utils/filters.py` and `services/recommendation_service.py`, followed by
theorems settling the specified properties of the rule scorer, the
identity reconciliation, the orchestration pipeline and the
personalization aggregator.

Numbers (prices, similarity scores, tolerances) are modelled as exact
rationals; Python dicts keyed by strings are modelled as insertion-ordered
association lists with last-write-wins update, matching Python dict
semantics; a Python product document is modelled as a record whose
optional fields use `Option` (with `none` playing the role of a missing
key / `None`), and string fields that the code defaults to `""` are plain
strings.
-/

namespace FashionRec

/-! ### Data model -/

/-- The three category fields a populated `categoryId` sub-document carries. -/
structure CategoryInfo where
  articleType : Option String
  masterCategory : Option String
  subCategory : Option String
deriving DecidableEq, Repr

/-- A catalog product document as the service reads it: `id` is
`str(product.get('_id', ''))`, numeric/string fields default to `0` / `""`
exactly as the `.get(key, default)` calls in the source do, and the three
root category fields plus the optional populated `categoryId` sub-document
mirror the dict layout. -/
structure Product where
  id : String
  name : String
  defaultPrice : ℚ
  gender : String
  usage : String
  brand : String
  articleType : Option String
  masterCategory : Option String
  subCategory : Option String
  categoryId : Option CategoryInfo
  images : List String
  createdAt : String
deriving DecidableEq, Repr

/-- Python truthiness of an optional string: `None` and `""` are falsy. -/
def truthy : Option String → Bool
  | none => false
  | some s => s ≠ ""

/-! ### Generic helpers: Python dicts, stable sorts, character-level string ops

Python's `sort`/`sorted` are stable; `sort(key=lambda x: -x[1])` and
`sort(..., reverse=True)` keep the original relative order of equal keys.
`insert_before` places the new element in front of the first entry it
should precede, which reproduces exactly that stable descending order. -/

/-- Stable insertion for a descending sort: `le y x` reads "y's key is at
most x's key"; `x` is placed before the first element whose key is ≤ its
own, hence before all equal keys that occurred later in the input. -/
def insert_before {α : Type} (le : α → α → Bool) (x : α) : List α → List α
  | [] => [x]
  | y :: ys => if le y x then x :: y :: ys else y :: insert_before le x ys

/-- Stable descending sort (Python `sort(key=..., reverse=...)` semantics,
with `le y x` meaning element `y` does not outrank element `x`). -/
def sort_desc {α : Type} (le : α → α → Bool) : List α → List α
  | [] => []
  | x :: xs => insert_before le x (sort_desc le xs)

/-- Python dict insertion: updating an existing key keeps its position,
a new key is appended. -/
def dict_insert {α : Type} : List (String × α) → String → α → List (String × α)
  | [], k, v => [(k, v)]
  | (k', v') :: rest, k, v =>
      if k' = k then (k', v) :: rest else (k', v') :: dict_insert rest k v

/-- Substring containment on character lists (Python `sub in hay`); the
empty pattern is contained in everything, as in Python. -/
def contains_sub : List Char → List Char → Bool
  | [], sub => sub.isEmpty
  | h :: t, sub => sub.isPrefixOf (h :: t) || contains_sub t sub

/-- Split a character list at the first occurrence of a (non-empty)
pattern, returning the part before and the part after it. -/
def break_on_sub : List Char → List Char → Option (List Char × List Char)
  | [], _ => none
  | h :: t, sub =>
      if sub.isPrefixOf (h :: t) then some ([], (h :: t).drop sub.length)
      else (break_on_sub t sub).map (fun pr => (h :: pr.1, pr.2))

/-- Split a character list on a single character (Python `s.split('/')`). -/
def split_on_char (c : Char) : List Char → List (List Char)
  | [] => [[]]
  | h :: t =>
      let r := split_on_char c t
      if h = c then [] :: r
      else
        match r with
        | [] => [[h]]
        | g :: gs => (h :: g) :: gs

/-- Join character lists with a separator character (Python `'/'.join`). -/
def join_with_char (c : Char) : List (List Char) → List Char
  | [] => []
  | [g] => g
  | g :: gs => g ++ c :: join_with_char c gs

/-- ASCII lower-casing of one character (the fragment of Python
`str.lower()` exercised by brand names). -/
def lower_char (c : Char) : Char :=
  if 65 ≤ c.toNat ∧ c.toNat ≤ 90 then Char.ofNat (c.toNat + 32) else c

/-- ASCII `str.lower()`. -/
def lower_str (s : String) : String := ⟨s.data.map lower_char⟩

/-- A character Python `str.strip()` removes. -/
def is_space_char (c : Char) : Bool :=
  c = ' ' || c = '\t' || c = '\n' || c = '\r'

/-- Truthiness of `img.strip()`: some non-whitespace character remains. -/
def strip_truthy (s : String) : Bool := s.data.any (fun c => !is_space_char c)

/-- `sub in hay` on strings. -/
def str_contains (hay sub : String) : Bool := contains_sub hay.data sub.data

/-! ### `utils/db_helper.py`: image extraction -/

/-- `get_product_images`: the `images` entries that are strings and truthy
after `strip()`. -/
def get_product_images (p : Product) : List String :=
  p.images.filter strip_truthy

/-- `get_first_image`: first usable image URL, if any. -/
def get_first_image (p : Product) : Option String :=
  (get_product_images p).head?

/-! ### `utils/filters.py`: category extraction and the hard filter -/

/-- The category-field extraction both `filter_by_category`,
`get_fallback_products` and the engine's pre-filter perform: read the
three root fields, and only if all three are falsy fall back to the
populated `categoryId` sub-document. -/
def category_fields_of (p : Product) : Option String × Option String × Option String :=
  if !truthy p.articleType && !truthy p.masterCategory && !truthy p.subCategory then
    match p.categoryId with
    | some ci => (ci.articleType, ci.masterCategory, ci.subCategory)
    | none => (p.articleType, p.masterCategory, p.subCategory)
  else (p.articleType, p.masterCategory, p.subCategory)

/-- The per-product `matches` check of `filter_by_category` (also inlined
verbatim in `get_fallback_products` and in the engine's category
pre-filter): every truthy target dimension must be equal on the candidate. -/
def category_matches (target p : Product) : Bool :=
  let tf := category_fields_of target
  let pf := category_fields_of p
  (!truthy tf.1 || pf.1 == tf.1) &&
  (!truthy tf.2.1 || pf.2.1 == tf.2.1) &&
  (!truthy tf.2.2 || pf.2.2 == tf.2.2)

/-- The category invariant as the specification words it: on every
category dimension that is non-empty (truthy) on the target, the
candidate's effective value equals the target's; empty target dimensions
impose no constraint. -/
def dims_ok (target p : Product) : Prop :=
  (truthy (category_fields_of target).1 = true →
    (category_fields_of p).1 = (category_fields_of target).1) ∧
  (truthy (category_fields_of target).2.1 = true →
    (category_fields_of p).2.1 = (category_fields_of target).2.1) ∧
  (truthy (category_fields_of target).2.2 = true →
    (category_fields_of p).2.2 = (category_fields_of target).2.2)

instance (target p : Product) : Decidable (dims_ok target p) := by
  unfold dims_ok; infer_instance

/-- `filter_by_category(products, target_product, same_category_only)`. -/
def filter_by_category (products : List Product) (target : Product)
    (same_category_only : Bool) : List Product :=
  if products.isEmpty || !same_category_only then products
  else products.filter (fun p => category_matches target p)

/-! ### `utils/filters.py`: options and the soft-scoring rule scorer -/

/-- The options dict. A field is `none` when the key is absent, so
`options.get(k, d)` is `field.getD d` and `options.setdefault(k, d)`
fills `none` fields. -/
structure Opts where
  price_tolerance : Option ℚ
  filter_gender : Option Bool
  filter_usage : Option Bool
  same_category_only : Option Bool
  brand_boost : Option ℚ
  min_similarity : Option ℚ
deriving DecidableEq, Repr

/-- The empty options dict `{}`. -/
def Opts.emptyDict : Opts := ⟨none, none, none, none, none, none⟩

/-- Step 1 of the soft scoring: price adjustment.  Applied only when the
target has a positive price AND the candidate has a positive price; then
in-range means `+0.10` capped at 1, out-of-range means `-0.05` floored
at 0. -/
def price_step (target_price tol cand_price s : ℚ) : ℚ :=
  if target_price > 0 then
    if cand_price > 0 then
      if target_price * (1 - tol) ≤ cand_price ∧ cand_price ≤ target_price * (1 + tol) then
        min (s + 1/10) 1
      else max (s - 1/20) 0
    else s
  else s

/-- Step 2: gender adjustment (`+0.08` exact, `+0.05` Unisex either side,
`-0.10` mismatch), active when `filter_gender` and target gender truthy. -/
def gender_step (enabled : Bool) (target_gender cand_gender : String) (s : ℚ) : ℚ :=
  if enabled ∧ target_gender ≠ "" then
    if cand_gender = target_gender then min (s + 2/25) 1
    else if cand_gender = "Unisex" ∨ target_gender = "Unisex" then min (s + 1/20) 1
    else max (s - 1/10) 0
  else s

/-- Step 3: usage adjustment (`+0.08` exact, `+0.03` Casual either side,
`-0.08` mismatch), active when `filter_usage` and target usage truthy. -/
def usage_step (enabled : Bool) (target_usage cand_usage : String) (s : ℚ) : ℚ :=
  if enabled ∧ target_usage ≠ "" then
    if cand_usage = target_usage then min (s + 2/25) 1
    else if cand_usage = "Casual" ∨ target_usage = "Casual" then min (s + 3/100) 1
    else max (s - 2/25) 0
  else s

/-- Step 4: brand boost (`+brand_boost` capped at 1 on a case-insensitive
brand match), active when `brand_boost > 0` and target brand truthy. -/
def brand_step (boost : ℚ) (target_brand cand_brand : String) (s : ℚ) : ℚ :=
  if boost > 0 ∧ target_brand ≠ "" then
    if cand_brand ≠ "" ∧ lower_str cand_brand = lower_str target_brand then
      min (s + boost) 1
    else s
  else s

/-- The body of the scoring loop of `apply_business_rules`: the four soft
adjustments applied in sequence to the base similarity. -/
def adjust_score (opts : Opts) (target p : Product) (base : ℚ) : ℚ :=
  let s1 := price_step target.defaultPrice (opts.price_tolerance.getD (1/2))
              p.defaultPrice base
  let s2 := gender_step (opts.filter_gender.getD true) target.gender p.gender s1
  let s3 := usage_step (opts.filter_usage.getD true) target.usage p.usage s2
  brand_step (opts.brand_boost.getD (1/20)) target.brand p.brand s3

/-- The `scores_dict` comprehension `{str(p['_id']): s for p, s in pairs}`
(later duplicate keys overwrite earlier ones). -/
def scores_dict (pairs : List (Product × ℚ)) : List (String × ℚ) :=
  pairs.foldl (fun d pr => dict_insert d pr.1.id pr.2) []

/-- Descending stable comparison on the score component. -/
def le_score (a b : Product × ℚ) : Bool := a.2 ≤ b.2

/-- `apply_business_rules(products_with_scores, target_product, options)`:
hard category filter, then per-candidate soft scoring, then the
`min_similarity` threshold (only applied when it is `> 0`), then a stable
descending sort on the adjusted score. -/
def apply_business_rules (pairs : List (Product × ℚ)) (target : Product)
    (opts : Opts) : List (Product × ℚ) :=
  if pairs.isEmpty then []
  else
    let min_similarity := opts.min_similarity.getD 0
    let products := pairs.map Prod.fst
    let sd := scores_dict pairs
    let filtered :=
      if opts.same_category_only.getD true then filter_by_category products target true
      else products
    let scored := filtered.map (fun p => (p, adjust_score opts target p ((sd.lookup p.id).getD 0)))
    let scored :=
      if min_similarity > 0 then scored.filter (fun pr => min_similarity ≤ pr.2)
      else scored
    sort_desc le_score scored

/-- `rank_and_limit(products_with_scores, limit)` on the
`diversity_boost=False` path the engine uses: stable descending sort, take
the first `limit`. -/
def rank_and_limit (pairs : List (Product × ℚ)) (limit : ℕ) : List (Product × ℚ) :=
  if pairs.isEmpty then [] else (sort_desc le_score pairs).take limit

/-- Descending stable comparison on `createdAt` (Python `sorted(...,
key=lambda p: p.get('createdAt',''), reverse=True)`). -/
def le_created (a b : Product) : Bool :=
  decide (a.createdAt ≤ b.createdAt)

/-- `get_fallback_products(db, target_product, limit)`: same-category
items (skipping the target itself), newest `createdAt` first, first
`limit` of them.  The database argument is the snapshot list the product
API returns. -/
def get_fallback_products (all_products : List Product) (target : Product)
    (limit : ℕ) : List Product :=
  let filtered := all_products.filter
    (fun p => p.id ≠ target.id && category_matches target p)
  (sort_desc le_created filtered).take limit

/-! ### `services/recommendation_service.py`: identity reconciliation -/

/-- The `extract_public_id` closure of `_images_match`: for a Cloudinary
URL, the part after the first `/upload/` (and before a second one, i.e.
`split('/upload/')[1]`), with a leading version segment `v...` removed and
the last extension stripped (`rsplit('.', 1)[0]`). -/
def extract_public_id (url : String) : Option String :=
  if str_contains url "cloudinary.com" && str_contains url "/upload/" then
    match break_on_sub url.data ("/upload/".data) with
    | none => none
    | some (_, tail1) =>
        let rest :=
          match break_on_sub tail1 ("/upload/".data) with
          | none => tail1
          | some (seg, _) => seg
        let rest :=
          if ['v'].isPrefixOf rest then join_with_char '/' (split_on_char '/' rest).tail
          else rest
        let pid :=
          match break_on_sub rest.reverse ['.'] with
          | none => rest
          | some (_, t) => t.reverse
        some ⟨pid⟩
  else none

/-- `_images_match(url1, url2)`: exact equality, else equal non-empty
Cloudinary public ids, else substring containment in either direction. -/
def images_match (url1 url2 : String) : Bool :=
  if url1 = url2 then true
  else
    let idmatch :=
      match extract_public_id url1, extract_public_id url2 with
      | some a, some b => a != "" && b != "" && a == b
      | _, _ => false
    if idmatch then true
    else str_contains url2 url1 || str_contains url1 url2

/-- The `product_by_image` / `product_by_id` lookup dicts
`_map_indices_to_products` builds over the live catalog snapshot: keyed by
first image URL (when the product has one) and by non-empty id. -/
def build_product_maps (all_products : List Product) :
    List (String × Product) × List (String × Product) :=
  all_products.foldl
    (fun maps p =>
      let by_image :=
        match get_first_image p with
        | some img => dict_insert maps.1 img p
        | none => maps.1
      let by_id := if p.id ≠ "" then dict_insert maps.2 p.id p else maps.2
      (by_image, by_id))
    ([], [])

/-- `_map_indices_to_products(db, indices, similarities)`: out-of-range
rows are skipped; otherwise the row is resolved by recorded catalog id
first, then exact recorded-locator lookup, then fuzzy locator match over
the image dict in insertion order; unresolved rows are dropped. -/
def map_indices_to_products (all_products : List Product)
    (image_paths : Option (List String)) (product_ids : Option (List String))
    (rows : List (ℤ × ℚ)) : List (Product × ℚ) :=
  match image_paths with
  | none => []
  | some paths =>
      if paths.length = 0 then []
      else
        let maps := build_product_maps all_products
        rows.foldl
          (fun (acc : List (Product × ℚ)) (row : ℤ × ℚ) =>
            if row.1 < 0 ∨ (paths.length : ℤ) ≤ row.1 then acc
            else
              let i := row.1.toNat
              let p1 : Option Product :=
                match product_ids with
                | some ids =>
                    if !ids.isEmpty && decide (i < ids.length) then
                      maps.2.lookup (ids.getD i "")
                    else none
                | none => none
              let p2 : Option Product :=
                match p1 with
                | some p => some p
                | none =>
                    let image_url := paths.getD i ""
                    match maps.1.lookup image_url with
                    | some p => some p
                    | none =>
                        match maps.1.find? (fun kv => images_match image_url kv.1) with
                        | some kv => some kv.2
                        | none => none
              match p2 with
              | some p => acc ++ [(p, row.2)]
              | none => acc)
          []

/-- Reconciliation strategy 1: exact catalog-id match of the row's
recorded product id against a live item. -/
def strategy_catalog_id (by_id : List (String × Product))
    (product_ids : Option (List String)) (i : ℕ) : Option Product :=
  match product_ids with
  | some ids =>
      if !ids.isEmpty && decide (i < ids.length) then by_id.lookup (ids.getD i "")
      else none
  | none => none

/-- Reconciliation strategy 2: exact image-locator string match. -/
def strategy_exact_locator (by_image : List (String × Product)) (url : String) :
    Option Product :=
  by_image.lookup url

/-- Reconciliation strategy 3: normalized-locator / substring match, first
matching live item in dict insertion order. -/
def strategy_fuzzy_locator (by_image : List (String × Product)) (url : String) :
    Option Product :=
  (by_image.find? (fun kv => images_match url kv.1)).map Prod.snd

/-- One row's reconciliation as the specification words it: the three
strategies tried in order, first success wins. -/
def reconcile_row (all_products : List Product) (paths : List String)
    (product_ids : Option (List String)) (i : ℕ) : Option Product :=
  let maps := build_product_maps all_products
  (strategy_catalog_id maps.2 product_ids i).orElse
    (fun _ => (strategy_exact_locator maps.1 (paths.getD i "")).orElse
      (fun _ => strategy_fuzzy_locator maps.1 (paths.getD i "")))

/-! ### `services/recommendation_service.py`: the engine

The environment collects everything outside the engine's control: the
catalog snapshot the product API returns, the loaded NPZ identity arrays,
whether FAISS is available, and the numeric output of the vector model —
`faiss_rows` abstracts `_find_in_faiss` on the target's query embedding
(index row, inner-product score), `can_embed` abstracts whether
`_embed_product` succeeds for a product, and `fly_sim` abstracts the
cosine similarity the on-the-fly path computes for a candidate (`none`
when the candidate's embedding fails). -/

structure Env where
  all_products : List Product
  get_product : String → Option Product
  use_faiss : Bool
  has_index : Bool
  index_total : ℕ
  image_paths : Option (List String)
  product_ids : Option (List String)
  faiss_rows : Product → List (ℤ × ℚ)
  can_embed : Product → Bool
  fly_sim : Product → Product → Option ℚ

/-- `_search_with_faiss(db, target_product, k)`: bail out when FAISS is
not properly initialized or the target has no image; resolve the query
embedding by id, exact URL, fuzzy URL, or on-the-fly encoding; search,
map rows to products and remove the target itself by id. -/
def search_with_faiss (env : Env) (target : Product) : List (Product × ℚ) :=
  if !(env.use_faiss && env.has_index && env.image_paths.isSome) then []
  else
    match get_first_image target with
    | none => []
    | some target_image_url =>
        let paths := env.image_paths.getD []
        let in_id_index :=
          match env.product_ids with
          | some ids => ids.contains target.id
          | none => false
        let found := in_id_index || paths.contains target_image_url
          || paths.any (fun u => images_match target_image_url u)
        if found || env.can_embed target then
          (map_indices_to_products env.all_products env.image_paths env.product_ids
            (env.faiss_rows target)).filter (fun pr => pr.1.id ≠ target.id)
        else []

/-- `_search_on_the_fly(db, target_product, candidate_products)`: embed
the target (fail ⇒ empty), take the candidate pool (or the whole
snapshot), remove the target by id, score the candidates whose embedding
succeeds, sort by similarity descending. -/
def search_on_the_fly (env : Env) (target : Product)
    (candidate_pool : Option (List Product)) : List (Product × ℚ) :=
  if !env.can_embed target then []
  else
    let pool : List Product :=
      match candidate_pool with
      | some l => l
      | none => env.all_products
    let cands := pool.filter (fun p => p.id ≠ target.id)
    sort_desc le_score (cands.filterMap (fun p => (env.fly_sim target p).map (fun s => (p, s))))

/-- One formatted recommendation: serialized product plus rounded score. -/
structure RecEntry where
  product : Product
  similarity : ℚ
deriving DecidableEq, Repr

/-- The response dict of `get_similar_products` /
`format_recommendation_response`. -/
structure Response where
  error : Option String
  recommendations : List RecEntry
  count : ℕ
  targetProduct : Option Product
  method : Option String
deriving DecidableEq, Repr

/-- Round half to even at the fourth decimal, the idealized semantics of
the `round(score, 4)` calls. -/
def round_half_even (x : ℚ) : ℤ :=
  let f := ⌊x⌋
  if x - f < 1/2 then f
  else if x - f > 1/2 then f + 1
  else if f % 2 = 0 then f else f + 1

/-- `round(q, 4)`. -/
def round4 (q : ℚ) : ℚ := (round_half_even (q * 10000) : ℚ) / 10000

/-- `format_recommendation_response(products_with_scores, target_product)`
(product serialization keeps every modelled field, so it is the identity
here). -/
def format_recommendation_response (pairs : List (Product × ℚ))
    (target : Option Product) : Response :=
  { error := none
    recommendations := pairs.map (fun pr => ⟨pr.1, round4 pr.2⟩)
    count := pairs.length
    targetProduct := target
    method := none }

/-- The chain of `options.setdefault(...)` calls at the top of
`get_similar_products`. -/
def Opts.set_defaults (o : Opts) : Opts :=
  { price_tolerance := some (o.price_tolerance.getD (1/2))
    filter_gender := some (o.filter_gender.getD true)
    filter_usage := some (o.filter_usage.getD true)
    same_category_only := some (o.same_category_only.getD true)
    brand_boost := some (o.brand_boost.getD (1/20))
    min_similarity := some (o.min_similarity.getD (3/5)) }

/-- The loosening performed when the first scoring pass is empty:
`options['price_tolerance'] = 1.0; options['same_category_only'] = False`. -/
def relax_opts (o : Opts) : Opts :=
  { o with price_tolerance := some 1, same_category_only := some false }

/-- The category pre-filter of `get_similar_products`: when
`same_category_only`, the snapshot narrowed to the target's category
before any search. -/
def category_pool (env : Env) (target : Product) (o : Opts) :
    Option (List Product) :=
  if o.same_category_only.getD true then
    some (env.all_products.filter (fun p => category_matches target p))
  else none

/-- The candidate-selection stage of `get_similar_products` (lines
choosing between FAISS and on-the-fly): FAISS results are intersected
with the pre-filter pool by id; when that leaves nothing the engine falls
to on-the-fly search over the pool, and the method tag records which path
produced the candidates. -/
def search_stage (env : Env) (target : Product)
    (pool : Option (List Product)) : List (Product × ℚ) × String :=
  let first : List (Product × ℚ) × String :=
    if env.use_faiss && env.has_index then
      let faiss_results := search_with_faiss env target
      let narrowed :=
        match pool with
        | some cp => faiss_results.filter (fun pr => cp.any (fun q => q.id == pr.1.id))
        | none => faiss_results
      (narrowed, "faiss")
    else ([], "unknown")
  if first.1.isEmpty then (search_on_the_fly env target pool, "on-the-fly") else first

/-- `get_similar_products(db, product_id, limit, options)`.  The second
component of the result is the caller's options dict after the call:
`options = options or {}` rebinds an empty (falsy) dict to a fresh one, so
only a non-empty caller dict receives the `setdefault` fills and the
relax-path overwrites. -/
def get_similar_products (env : Env) (product_id : String) (limit : ℕ)
    (caller_opts : Opts) : Response × Opts :=
  let aliased := caller_opts ≠ Opts.emptyDict
  let o := caller_opts.set_defaults
  let give := fun (r : Response) (final : Opts) =>
    (r, if aliased then final else caller_opts)
  match env.get_product product_id with
  | none =>
      give { error := some "Product not found", recommendations := [], count := 0,
             targetProduct := none, method := none } o
  | some target =>
      let pool := category_pool env target o
      let sr := search_stage env target pool
      if sr.1.isEmpty then
        let fb := get_fallback_products env.all_products target limit
        give { format_recommendation_response (fb.map (fun p => (p, (1:ℚ)/2)))
                 (some target) with method := some "fallback" } o
      else
        let pass1 := apply_business_rules sr.1 target o
        let second := pass1.isEmpty
        let o2 := if second then relax_opts o else o
        let filtered :=
          if second then apply_business_rules sr.1 target (relax_opts o) else pass1
        give { format_recommendation_response (rank_and_limit filtered limit)
                 (some target) with method := some sr.2 } o2

/-- Modelled from the spec (refinement comparison only): §4.5 states the
category pre-filter "may narrow the reconciliation pool before
reconciling, purely as an optimization; must not change the final result
set versus post-reconciliation filtering".  This pipeline reconciles
against the full pool — no pre-filter — and leaves the category
constraint to the scorer's hard filter afterwards; the claimed equivalence
compares it with `get_similar_products`. -/
def get_similar_products_postfiltered (env : Env) (product_id : String)
    (limit : ℕ) (caller_opts : Opts) : Response × Opts :=
  let aliased := caller_opts ≠ Opts.emptyDict
  let o := caller_opts.set_defaults
  let give := fun (r : Response) (final : Opts) =>
    (r, if aliased then final else caller_opts)
  match env.get_product product_id with
  | none =>
      give { error := some "Product not found", recommendations := [], count := 0,
             targetProduct := none, method := none } o
  | some target =>
      let sr := search_stage env target none
      if sr.1.isEmpty then
        let fb := get_fallback_products env.all_products target limit
        give { format_recommendation_response (fb.map (fun p => (p, (1:ℚ)/2)))
                 (some target) with method := some "fallback" } o
      else
        let pass1 := apply_business_rules sr.1 target o
        let second := pass1.isEmpty
        let o2 := if second then relax_opts o else o
        let filtered :=
          if second then apply_business_rules sr.1 target (relax_opts o) else pass1
        give { format_recommendation_response (rank_and_limit filtered limit)
                 (some target) with method := some sr.2 } o2

/-! ### `retrieve_personalized`: the personalization aggregator -/

/-- One aggregated candidate of `retrieve_personalized`. -/
structure CandidateEntry where
  product : Product
  score : ℚ
deriving DecidableEq, Repr

/-- The response dict of `retrieve_personalized`. -/
structure PersonalResponse where
  error : Option String
  candidates : List CandidateEntry
  count : ℕ
  method : Option String
deriving DecidableEq, Repr

/-- The per-seed options literal `{'same_category_only': False,
'min_similarity': 0.0}`. -/
def seed_opts : Opts :=
  { Opts.emptyDict with same_category_only := some false, min_similarity := some 0 }

/-- The max-reduction dict update: `if pid not in aggregate_scores or sim
> aggregate_scores[pid]` store the new score and product (an existing key
keeps its position). -/
def agg_insert_max : List (String × ℚ × Product) → String → ℚ → Product →
    List (String × ℚ × Product)
  | [], pid, sim, p => [(pid, sim, p)]
  | e :: rest, pid, sim, p =>
      if e.1 = pid then
        (if sim > e.2.1 then (pid, sim, p) :: rest else e :: rest)
      else e :: agg_insert_max rest pid sim p

/-- Folding one recommendation into the aggregation state: rows without a
product id are skipped. -/
def agg_step (acc : List (String × ℚ × Product)) (r : RecEntry) :
    List (String × ℚ × Product) :=
  if r.product.id = "" then acc
  else agg_insert_max acc r.product.id r.similarity r.product

/-- Descending stable comparison on the aggregated score. -/
def le_agg (a b : String × ℚ × Product) : Bool := a.2.1 ≤ b.2.1

/-- The per-seed neighbor lookup of `retrieve_personalized`:
`get_similar_products(db, seed_id, limit=50, options={'same_category_only':
False, 'min_similarity': 0.0})`. -/
def seed_recommendations (env : Env) (seed_id : String) : List RecEntry :=
  (get_similar_products env seed_id 50 seed_opts).1.recommendations

/-- The aggregation loop of `retrieve_personalized`: fold every
recommendation of every seed into the max-reduction dict. -/
def aggregate_seeds (env : Env) (seed_ids : List String) :
    List (String × ℚ × Product) :=
  seed_ids.foldl
    (fun acc seed_id => (seed_recommendations env seed_id).foldl agg_step acc) []

/-- Score recorded in the aggregation dict for a product id. -/
def agg_lookup (agg : List (String × ℚ × Product)) (pid : String) : Option ℚ :=
  (agg.find? (fun e => e.1 = pid)).map (fun e => e.2.1)

/-- Fold step of a running maximum. -/
def opt_max (o : Option ℚ) (s : ℚ) : ℚ :=
  match o with
  | none => s
  | some a => max a s

/-- Maximum of a list of scores (`none` when empty). -/
def max_score (l : List ℚ) : Option ℚ :=
  l.foldl (fun o s => some (opt_max o s)) none

/-- The similarity scores a recommendation stream carries for one
product id. -/
def scores_for (recs : List RecEntry) (pid : String) : List ℚ :=
  recs.filterMap (fun r => if r.product.id = pid then some r.similarity else none)

/-- `retrieve_personalized(db, recent_item_ids, limit, options)`: clamp
the limit to `[1, 200]`; with no seeds return the index-order placeholder
(or an `empty` response without an index); otherwise run
`get_similar_products` per seed (at most the first 10) with the per-seed
options, merge by max-reduction per product id, sort descending and
truncate. -/
def retrieve_personalized (env : Env) (recent_item_ids : List String)
    (limit0 : ℕ) : PersonalResponse :=
  let limit := max 1 (min limit0 200)
  if recent_item_ids.isEmpty then
    let k := min limit (if env.has_index then env.index_total else 0)
    if !env.has_index || k = 0 then ⟨none, [], 0, some "empty"⟩
    else
      let rows := (List.range k).map
        (fun i => ((i : ℤ), if k = 1 then (1 : ℚ) else 1 - (3/10) * i / ((k : ℚ) - 1)))
      let mapped := map_indices_to_products env.all_products env.image_paths
        env.product_ids rows
      let candidates := (mapped.map (fun pr => CandidateEntry.mk pr.1 (round4 pr.2))).take limit
      ⟨none, candidates, candidates.length, some "fallback-index"⟩
  else
    let agg := aggregate_seeds env (recent_item_ids.take 10)
    if agg.isEmpty then ⟨none, [], 0, some "no-seed-results"⟩
    else
      let ranked := (sort_desc le_agg agg).take limit
      let candidates := ranked.map (fun e => CandidateEntry.mk e.2.2 (round4 e.2.1))
      ⟨none, candidates, candidates.length, some "seeds-faiss-aggregate"⟩

/-! ### Concrete instances used by scenario conjuncts, witnesses and
counterexamples -/

/-- A product with every optional field absent and all defaults, to be
overridden field by field. -/
def blank_product : Product :=
  { id := "", name := "", defaultPrice := 0, gender := "", usage := "", brand := "",
    articleType := none, masterCategory := none, subCategory := none,
    categoryId := none, images := [], createdAt := "" }

/-- Scenario target: price 100, gender Male, brand Acme. -/
def scen_target : Product :=
  { blank_product with id := "t", defaultPrice := 100, gender := "Male", brand := "Acme" }

/-- Scenario candidate: price 90, gender Male, brand acme (case differs),
base similarity 0.70. -/
def scen_cand : Product :=
  { blank_product with id := "c", defaultPrice := 90, gender := "Male", brand := "acme" }

/-- A target with only a positive price set (gender/usage/brand empty). -/
def price_only_target : Product :=
  { blank_product with id := "t", defaultPrice := 100 }

/-- A candidate whose price is in range of `price_only_target`. -/
def in_range_cand : Product :=
  { blank_product with id := "n", defaultPrice := 90 }

/-- A candidate whose price is 0/absent. -/
def zero_price_cand : Product := { blank_product with id := "z" }

/-- A fully neutral target: no adjustment applies against it. -/
def neutral_target : Product := { blank_product with id := "t" }

/-- A neutral candidate (used with a negative base similarity). -/
def neutral_cand : Product := { blank_product with id := "m" }

/-- The product of the max-versus-average aggregation scenario. -/
def item_x : Product := { blank_product with id := "x" }

/-- A live catalog item whose recorded index locator went stale but whose
recorded catalog id is still valid. -/
def live_item : Product :=
  { blank_product with id := "p1", images := ["https://live/new_img.png"] }

/-- Target of the engine counterexamples: category Shirt, otherwise
neutral. -/
def shirt_target : Product :=
  { blank_product with id := "t", articleType := some "Shirt", images := ["imgT"] }

/-- Same-category candidate with a low base similarity. -/
def shirt_low : Product :=
  { blank_product with id := "a", articleType := some "Shirt", images := ["imgA"] }

/-- Cross-category candidate with a high base similarity. -/
def pants_high : Product :=
  { blank_product with id := "b", articleType := some "Pants", images := ["imgB"] }

/-- Same-category candidate with a high base similarity. -/
def shirt_high : Product :=
  { blank_product with id := "a", articleType := some "Shirt", images := ["imgA"] }

/-- Environment of the relax-then-empty counterexample: no FAISS, the
on-the-fly path scores the single same-category candidate at 0.1, below
the default 0.6 threshold even after relaxing. -/
def env_low : Env :=
  { all_products := [shirt_target, shirt_low]
    get_product := fun s => if s = "t" then some shirt_target else none
    use_faiss := false
    has_index := false
    index_total := 0
    image_paths := none
    product_ids := none
    faiss_rows := fun _ => []
    can_embed := fun _ => true
    fly_sim := fun _ c => if c.id = "a" then some (1/10) else none }

/-- Environment where the search stage finds nothing at all: no FAISS
and the target's embedding fails, so the recency fallback fires. -/
def env_fallback : Env :=
  { all_products := [shirt_target, shirt_low]
    get_product := fun s => if s = "t" then some shirt_target else none
    use_faiss := false
    has_index := false
    index_total := 0
    image_paths := none
    product_ids := none
    faiss_rows := fun _ => []
    can_embed := fun _ => false
    fly_sim := fun _ _ => none }

/-- Environment of the pre-filter counterexample: FAISS returns the
same-category candidate at 0.1 and the cross-category candidate at 0.9. -/
def env_mixed : Env :=
  { all_products := [shirt_target, shirt_low, pants_high]
    get_product := fun s => if s = "t" then some shirt_target else none
    use_faiss := true
    has_index := true
    index_total := 3
    image_paths := some ["imgT", "imgA", "imgB"]
    product_ids := some ["t", "a", "b"]
    faiss_rows := fun _ => [(1, 1/10), (2, 9/10)]
    can_embed := fun _ => true
    fly_sim := fun _ _ => none }

/-- Environment whose single candidate passes the threshold: FAISS
returns the same-category candidate at 0.9. -/
def env_hit : Env :=
  { all_products := [shirt_target, shirt_high]
    get_product := fun s => if s = "t" then some shirt_target else none
    use_faiss := true
    has_index := true
    index_total := 2
    image_paths := some ["imgT", "imgA"]
    product_ids := some ["t", "a"]
    faiss_rows := fun _ => [(1, 9/10)]
    can_embed := fun _ => true
    fly_sim := fun _ _ => none }

/-! ### Helper lemmas: stable sort, dict lookups, scorer membership -/

theorem lookup_cons {α : Type} (a k : String) (v : α) (t : List (String × α)) :
    List.lookup a ((k, v) :: t) = if a = k then some v else List.lookup a t := by
  by_cases h : a = k
  · have hb : (a == k) = true := by simpa using h
    rw [if_pos h]
    simp [List.lookup, hb]
  · have hb : (a == k) = false := by simpa using h
    rw [if_neg h]
    simp [List.lookup, hb]

theorem insert_before_cons {α : Type} (le : α → α → Bool) (x y : α) (ys : List α) :
    insert_before le x (y :: ys) =
      if le y x = true then x :: y :: ys else y :: insert_before le x ys := rfl

theorem mem_insert_before {α : Type} (le : α → α → Bool) (x a : α) (l : List α) :
    a ∈ insert_before le x l ↔ a = x ∨ a ∈ l := by
  induction l with
  | nil => simp [insert_before]
  | cons y ys ih =>
      unfold insert_before
      by_cases h : le y x = true
      · simp [h]
      · simp [h, ih]
        tauto

theorem mem_sort_desc {α : Type} (le : α → α → Bool) (a : α) (l : List α) :
    a ∈ sort_desc le l ↔ a ∈ l := by
  induction l with
  | nil => simp [sort_desc]
  | cons y ys ih => simp [sort_desc, mem_insert_before, ih]

theorem chain_insert_before {α : Type} {le : α → α → Bool}
    (ht : ∀ a b : α, le a b = true ∨ le b a = true) (x : α) {l : List α}
    (h : l.Chain' (fun a b => le b a = true)) :
    (insert_before le x l).Chain' (fun a b => le b a = true) := by
  induction l with
  | nil => simp [insert_before]
  | cons y ys ih =>
      by_cases hyx : le y x = true
      · rw [insert_before_cons, if_pos hyx]
        exact List.chain'_cons.mpr ⟨hyx, h⟩
      · have h2 := List.chain'_cons'.mp h
        have hxy : le x y = true := (ht x y).resolve_right hyx
        have htail := ih h2.2
        rw [insert_before_cons, if_neg hyx, List.chain'_cons']
        refine ⟨?_, htail⟩
        intro z hz
        cases ys with
        | nil =>
            simp only [insert_before, List.head?_cons, Option.mem_def,
              Option.some.injEq] at hz
            subst hz; exact hxy
        | cons w ws =>
            by_cases hwx : le w x = true
            · rw [insert_before_cons, if_pos hwx] at hz
              simp only [List.head?_cons, Option.mem_def, Option.some.injEq] at hz
              subst hz; exact hxy
            · rw [insert_before_cons, if_neg hwx] at hz
              simp only [List.head?_cons, Option.mem_def, Option.some.injEq] at hz
              subst hz
              exact h2.1 w rfl

theorem chain_sort_desc {α : Type} {le : α → α → Bool}
    (ht : ∀ a b : α, le a b = true ∨ le b a = true) (l : List α) :
    (sort_desc le l).Chain' (fun a b => le b a = true) := by
  induction l with
  | nil => simp [sort_desc]
  | cons y ys ih => exact chain_insert_before ht y ih

theorem dict_insert_lookup {α : Type} (d : List (String × α)) (k : String) (v : α)
    (k' : String) :
    (dict_insert d k v).lookup k' = if k' = k then some v else d.lookup k' := by
  induction d with
  | nil =>
      rw [show dict_insert ([] : List (String × α)) k v = [(k, v)] from rfl, lookup_cons]
  | cons e rest ih =>
      obtain ⟨a, b⟩ := e
      by_cases hak : a = k
      · subst hak
        rw [show dict_insert ((a, b) :: rest) a v = (a, v) :: rest from by
              simp [dict_insert],
            lookup_cons, lookup_cons]
        by_cases h : k' = a <;> simp [h]
      · rw [show dict_insert ((a, b) :: rest) k v = (a, b) :: dict_insert rest k v from by
              simp [dict_insert, hak],
            lookup_cons, lookup_cons, ih]
        by_cases h : k' = a
        · subst h
          rw [if_neg hak, if_neg hak]
        · simp [h]

theorem lookup_mem {α : Type} {d : List (String × α)} {k : String} {v : α}
    (h : d.lookup k = some v) : (k, v) ∈ d := by
  induction d with
  | nil => simp [List.lookup] at h
  | cons e rest ih =>
      obtain ⟨a, b⟩ := e
      rw [lookup_cons] at h
      by_cases hk : k = a
      · subst hk
        rw [if_pos rfl] at h
        injection h with h
        subst h
        exact List.mem_cons_self _ _
      · rw [if_neg hk] at h
        exact List.mem_cons_of_mem _ (ih h)

theorem find?_of_nodup_key {α : Type} (key : α → String) {l : List α}
    (h : (l.map key).Nodup) {x : α} (hx : x ∈ l) :
    l.find? (fun y => key y == key x) = some x := by
  induction l with
  | nil => simp at hx
  | cons a rest ih =>
      rw [List.map_cons, List.nodup_cons] at h
      rcases List.mem_cons.mp hx with rfl | hx'
      · exact List.find?_cons_of_pos _ (by simp)
      · have hne : key a ≠ key x := by
          intro he
          exact h.1 (he ▸ List.mem_map_of_mem key hx')
        rw [List.find?_cons_of_neg _ (by simp [hne]), ih h.2 hx']

theorem foldl_dict_lookup (pairs : List (Product × ℚ)) (d0 : List (String × ℚ))
    (k : String) :
    (pairs.foldl (fun d pr => dict_insert d pr.1.id pr.2) d0).lookup k =
      match pairs.reverse.find? (fun pr => pr.1.id == k) with
      | some pr => some pr.2
      | none => d0.lookup k := by
  induction pairs generalizing d0 with
  | nil => simp
  | cons a rest ih =>
      rw [List.foldl_cons, ih, List.reverse_cons, List.find?_append]
      cases hfind : rest.reverse.find? (fun pr => pr.1.id == k) with
      | some pr => simp [Option.or]
      | none =>
          by_cases hk : a.1.id = k
          · rw [List.find?_cons_of_pos _ (by simp [hk])]
            simp [Option.or, dict_insert_lookup, hk]
          · rw [List.find?_cons_of_neg _ (by simp [hk])]
            simp [Option.or, dict_insert_lookup, Ne.symm hk]

theorem scores_dict_lookup_nodup {pairs : List (Product × ℚ)}
    (hnd : (pairs.map (fun pr => pr.1.id)).Nodup) {p : Product} {b : ℚ}
    (hmem : (p, b) ∈ pairs) : (scores_dict pairs).lookup p.id = some b := by
  have hrev : (pairs.reverse.map (fun pr : Product × ℚ => pr.1.id)).Nodup := by
    rw [List.map_reverse]
    exact List.nodup_reverse.mpr hnd
  have := find?_of_nodup_key (fun pr : Product × ℚ => pr.1.id) hrev
    (List.mem_reverse.mpr hmem)
  unfold scores_dict
  rw [foldl_dict_lookup]
  simp [this]

theorem filter_by_category_true (products : List Product) (target : Product) :
    filter_by_category products target true =
      products.filter (fun p => category_matches target p) := by
  cases products with
  | nil => simp [filter_by_category]
  | cons a l => simp [filter_by_category]

/-- The scoring loop computes exactly the four steps in order. -/
theorem adjust_score_eq_steps (opts : Opts) (target p : Product) (base : ℚ) :
    adjust_score opts target p base =
      brand_step (opts.brand_boost.getD (1/20)) target.brand p.brand
        (usage_step (opts.filter_usage.getD true) target.usage p.usage
          (gender_step (opts.filter_gender.getD true) target.gender p.gender
            (price_step target.defaultPrice (opts.price_tolerance.getD (1/2))
              p.defaultPrice base))) := rfl

/-- Everything true of a candidate that survives `apply_business_rules`:
it came from the input, its score is the four-step adjustment of its base
score, it passed the hard category filter when that was on, and it passed
the threshold when the threshold was positive. -/
theorem apply_business_rules_mem {pairs : List (Product × ℚ)} {target : Product}
    {opts : Opts} {p : Product} {s : ℚ}
    (h : (p, s) ∈ apply_business_rules pairs target opts) :
    p ∈ pairs.map Prod.fst ∧
    s = adjust_score opts target p (((scores_dict pairs).lookup p.id).getD 0) ∧
    (opts.same_category_only.getD true = true → category_matches target p = true) ∧
    (0 < opts.min_similarity.getD 0 → opts.min_similarity.getD 0 ≤ s) := by
  unfold apply_business_rules at h
  by_cases hp : pairs.isEmpty
  · simp [hp] at h
  · simp only [hp, Bool.false_eq_true, if_false] at h
    rw [mem_sort_desc] at h
    have hmain : (p, s) ∈ (if opts.same_category_only.getD true then
        filter_by_category (pairs.map Prod.fst) target true
      else pairs.map Prod.fst).map
        (fun q => (q, adjust_score opts target q
          (((scores_dict pairs).lookup q.id).getD 0))) ∧
        (0 < opts.min_similarity.getD 0 → opts.min_similarity.getD 0 ≤ s) := by
      by_cases hm : 0 < opts.min_similarity.getD 0
      · rw [if_pos hm] at h
        have := List.mem_filter.mp h
        exact ⟨this.1, fun _ => by simpa using this.2⟩
      · rw [if_neg hm] at h
        exact ⟨h, fun hc => absurd hc hm⟩
    obtain ⟨hmem, hthr⟩ := hmain
    obtain ⟨q, hq, hqe⟩ := List.mem_map.mp hmem
    obtain ⟨rfl, rfl⟩ : q = p ∧ adjust_score opts target q
        (((scores_dict pairs).lookup q.id).getD 0) = s := by
      have h1 := congrArg Prod.fst hqe
      have h2 := congrArg Prod.snd hqe
      exact ⟨h1, h2⟩
    refine ⟨?_, rfl, ?_, hthr⟩
    · by_cases hc : opts.same_category_only.getD true
      · rw [if_pos hc, filter_by_category_true] at hq
        exact (List.mem_filter.mp hq).1
      · rw [if_neg hc] at hq
        exact hq
    · intro hct
      rw [if_pos hct, filter_by_category_true] at hq
      exact (List.mem_filter.mp hq).2

theorem mem_rank_and_limit {pairs : List (Product × ℚ)} {limit : ℕ}
    {pr : Product × ℚ} (h : pr ∈ rank_and_limit pairs limit) : pr ∈ pairs := by
  unfold rank_and_limit at h
  by_cases hp : pairs.isEmpty
  · simp [hp] at h
  · simp only [hp, Bool.false_eq_true, if_false] at h
    exact (mem_sort_desc _ _ _).mp (List.mem_of_mem_take h)

theorem mem_get_fallback_products {all_products : List Product} {target : Product}
    {limit : ℕ} {p : Product} (h : p ∈ get_fallback_products all_products target limit) :
    p ∈ all_products ∧ p.id ≠ target.id ∧ category_matches target p = true := by
  unfold get_fallback_products at h
  have h1 := (mem_sort_desc _ _ _).mp (List.mem_of_mem_take h)
  have h2 := List.mem_filter.mp h1
  refine ⟨h2.1, ?_, ?_⟩
  · have := h2.2
    simp only [Bool.and_eq_true, decide_eq_true_eq] at this
    exact this.1
  · have := h2.2
    simp only [Bool.and_eq_true] at this
    exact this.2

theorem price_step_unit (tp tol cp : ℚ) {s : ℚ} (h0 : 0 ≤ s) (h1 : s ≤ 1) :
    0 ≤ price_step tp tol cp s ∧ price_step tp tol cp s ≤ 1 := by
  unfold price_step
  split_ifs with ha hb hc
  · exact ⟨le_min (by linarith) (by norm_num), min_le_right _ _⟩
  · exact ⟨le_max_right _ _, max_le (by linarith) (by norm_num)⟩
  · exact ⟨h0, h1⟩
  · exact ⟨h0, h1⟩

theorem gender_step_unit (e : Bool) (tg cg : String) {s : ℚ} (h0 : 0 ≤ s)
    (h1 : s ≤ 1) : 0 ≤ gender_step e tg cg s ∧ gender_step e tg cg s ≤ 1 := by
  unfold gender_step
  split_ifs with ha hb hc
  · exact ⟨le_min (by linarith) (by norm_num), min_le_right _ _⟩
  · exact ⟨le_min (by linarith) (by norm_num), min_le_right _ _⟩
  · exact ⟨le_max_right _ _, max_le (by linarith) (by norm_num)⟩
  · exact ⟨h0, h1⟩

theorem usage_step_unit (e : Bool) (tu cu : String) {s : ℚ} (h0 : 0 ≤ s)
    (h1 : s ≤ 1) : 0 ≤ usage_step e tu cu s ∧ usage_step e tu cu s ≤ 1 := by
  unfold usage_step
  split_ifs with ha hb hc
  · exact ⟨le_min (by linarith) (by norm_num), min_le_right _ _⟩
  · exact ⟨le_min (by linarith) (by norm_num), min_le_right _ _⟩
  · exact ⟨le_max_right _ _, max_le (by linarith) (by norm_num)⟩
  · exact ⟨h0, h1⟩

theorem brand_step_unit (b : ℚ) (tb cb : String) {s : ℚ} (h0 : 0 ≤ s)
    (h1 : s ≤ 1) : 0 ≤ brand_step b tb cb s ∧ brand_step b tb cb s ≤ 1 := by
  unfold brand_step
  split_ifs with ha hb
  · exact ⟨le_min (by linarith [ha.1]) (by norm_num), min_le_right _ _⟩
  · exact ⟨h0, h1⟩
  · exact ⟨h0, h1⟩

theorem mem_dict_insert {α : Type} {d : List (String × α)} {k : String} {v : α}
    {kv : String × α} (h : kv ∈ dict_insert d k v) : kv = (k, v) ∨ kv ∈ d := by
  induction d with
  | nil => simpa [dict_insert] using h
  | cons e rest ih =>
      by_cases he : e.1 = k
      · rw [show dict_insert (e :: rest) k v = (e.1, v) :: rest from by
              cases e; simp_all [dict_insert]] at h
        rcases List.mem_cons.mp h with rfl | h'
        · exact Or.inl (by rw [he])
        · exact Or.inr (List.mem_cons_of_mem _ h')
      · rw [show dict_insert (e :: rest) k v = e :: dict_insert rest k v from by
              cases e; simp_all [dict_insert]] at h
        rcases List.mem_cons.mp h with rfl | h'
        · exact Or.inr (List.mem_cons_self _ _)
        · rcases ih h' with h'' | h''
          · exact Or.inl h''
          · exact Or.inr (List.mem_cons_of_mem _ h'')

theorem build_product_maps_values (aps : List Product) :
    (∀ kv ∈ (build_product_maps aps).1, kv.2 ∈ aps) ∧
    (∀ kv ∈ (build_product_maps aps).2, kv.2 ∈ aps) := by
  unfold build_product_maps
  suffices h : ∀ (l : List Product)
      (maps : List (String × Product) × List (String × Product)),
      (∀ p ∈ l, p ∈ aps) →
      (∀ kv ∈ maps.1, kv.2 ∈ aps) → (∀ kv ∈ maps.2, kv.2 ∈ aps) →
      (∀ kv ∈ (l.foldl (fun maps p =>
          let by_image :=
            match get_first_image p with
            | some img => dict_insert maps.1 img p
            | none => maps.1
          let by_id := if p.id ≠ "" then dict_insert maps.2 p.id p else maps.2
          (by_image, by_id)) maps).1, kv.2 ∈ aps) ∧
      (∀ kv ∈ (l.foldl (fun maps p =>
          let by_image :=
            match get_first_image p with
            | some img => dict_insert maps.1 img p
            | none => maps.1
          let by_id := if p.id ≠ "" then dict_insert maps.2 p.id p else maps.2
          (by_image, by_id)) maps).2, kv.2 ∈ aps) by
    exact h aps ([], []) (fun p hp => hp) (by simp) (by simp)
  intro l
  induction l with
  | nil => intro maps _ h1 h2; exact ⟨h1, h2⟩
  | cons p rest ih =>
      intro maps hl h1 h2
      rw [List.foldl_cons]
      refine ih _ (fun q hq => hl q (List.mem_cons_of_mem _ hq)) ?_ ?_
      · intro kv hkv
        simp only at hkv
        cases hg : get_first_image p with
        | some img =>
            rw [hg] at hkv
            rcases mem_dict_insert hkv with rfl | h'
            · exact hl p (List.mem_cons_self _ _)
            · exact h1 _ h'
        | none => rw [hg] at hkv; exact h1 _ hkv
      · intro kv hkv
        simp only at hkv
        by_cases hid : p.id ≠ ""
        · rw [if_pos hid] at hkv
          rcases mem_dict_insert hkv with rfl | h'
          · exact hl p (List.mem_cons_self _ _)
          · exact h2 _ h'
        · rw [if_neg hid] at hkv
          exact h2 _ hkv

theorem mem_match_append {acc : List (Product × ℚ)} {o : Option Product} {q : ℚ}
    {x : Product × ℚ}
    (hx : x ∈ (match o with | some p => acc ++ [(p, q)] | none => acc)) :
    x ∈ acc ∨ ∃ p, o = some p ∧ x = (p, q) := by
  cases o with
  | some p =>
      rcases List.mem_append.mp hx with hin | hnew
      · exact Or.inl hin
      · exact Or.inr ⟨p, rfl, by simpa using hnew⟩
  | none => exact Or.inl hx

theorem map_indices_mem {aps : List Product} {ips : Option (List String)}
    {pids : Option (List String)} {rows : List (ℤ × ℚ)} {pr : Product × ℚ}
    (h : pr ∈ map_indices_to_products aps ips pids rows) : pr.1 ∈ aps := by
  unfold map_indices_to_products at h
  cases ips with
  | none => simp at h
  | some paths =>
      by_cases hl : paths.length = 0
      · simp [hl] at h
      · simp only [hl, if_false] at h
        have hmaps := build_product_maps_values aps
        suffices hgen : ∀ (rows : List (ℤ × ℚ)) (acc : List (Product × ℚ)),
            (∀ x ∈ acc, x.1 ∈ aps) →
            ∀ x ∈ rows.foldl (fun (acc : List (Product × ℚ)) (row : ℤ × ℚ) =>
              if row.1 < 0 ∨ (paths.length : ℤ) ≤ row.1 then acc
              else
                let i := row.1.toNat
                let p1 : Option Product :=
                  match pids with
                  | some ids =>
                      if !ids.isEmpty && decide (i < ids.length) then
                        (build_product_maps aps).2.lookup (ids.getD i "")
                      else none
                  | none => none
                let p2 : Option Product :=
                  match p1 with
                  | some p => some p
                  | none =>
                      let image_url := paths.getD i ""
                      match (build_product_maps aps).1.lookup image_url with
                      | some p => some p
                      | none =>
                          match (build_product_maps aps).1.find?
                              (fun kv => images_match image_url kv.1) with
                          | some kv => some kv.2
                          | none => none
                match p2 with
                | some p => acc ++ [(p, row.2)]
                | none => acc) acc, x.1 ∈ aps by
          exact hgen rows [] (by simp) pr h
        intro rows
        induction rows with
        | nil => intro acc hacc x hx; exact hacc x hx
        | cons row rest ih =>
            intro acc hacc
            rw [List.foldl_cons]
            apply ih
            clear h ih
            by_cases hskip : row.1 < 0 ∨ (paths.length : ℤ) ≤ row.1
            · rw [if_pos hskip]; exact hacc
            · rw [if_neg hskip]
              simp only
              have hp1 : ∀ p : Product,
                  (match pids with
                   | some ids =>
                       if !ids.isEmpty && decide (row.1.toNat < ids.length) then
                         (build_product_maps aps).2.lookup (ids.getD row.1.toNat "")
                       else none
                   | none => none) = some p → p ∈ aps := by
                intro p hp
                cases pids with
                | none => simp at hp
                | some ids =>
                    cases hc : !ids.isEmpty && decide (row.1.toNat < ids.length) with
                    | true =>
                        simp only [hc, if_true] at hp
                        exact hmaps.2 _ (lookup_mem hp)
                    | false => simp [hc] at hp
              have hp2 : ∀ p : Product,
                  (match (build_product_maps aps).1.lookup (paths.getD row.1.toNat "") with
                   | some p => some p
                   | none =>
                       match (build_product_maps aps).1.find?
                           (fun kv => images_match (paths.getD row.1.toNat "") kv.1) with
                       | some kv => some kv.2
                       | none => none) = some p → p ∈ aps := by
                intro p hp
                cases hlk : (build_product_maps aps).1.lookup (paths.getD row.1.toNat "") with
                | some q =>
                    rw [hlk] at hp
                    injection hp with hp
                    subst hp
                    exact hmaps.1 _ (lookup_mem hlk)
                | none =>
                    rw [hlk] at hp
                    cases hfd : (build_product_maps aps).1.find?
                        (fun kv => images_match (paths.getD row.1.toNat "") kv.1) with
                    | some kv =>
                        rw [hfd] at hp
                        injection hp with hp
                        subst hp
                        exact hmaps.1 _ (List.mem_of_find?_eq_some hfd)
                    | none => rw [hfd] at hp; simp at hp
              intro x hx
              rcases mem_match_append hx with hin | ⟨p, hsome, rfl⟩
              · exact hacc x hin
              · cases hm : (match pids with
                     | some ids =>
                         if !ids.isEmpty && decide (row.1.toNat < ids.length) then
                           (build_product_maps aps).2.lookup (ids.getD row.1.toNat "")
                         else none
                     | none => none) with
                | some p' =>
                    rw [hm] at hsome
                    simp only [Option.some.injEq] at hsome
                    subst hsome
                    exact hp1 p' hm
                | none =>
                    rw [hm] at hsome
                    exact hp2 p hsome

theorem search_with_faiss_mem {env : Env} {target : Product} {pr : Product × ℚ}
    (h : pr ∈ search_with_faiss env target) :
    pr.1.id ≠ target.id ∧ pr.1 ∈ env.all_products := by
  simp only [search_with_faiss] at h
  split at h
  · simp at h
  · split at h
    · simp at h
    · split at h
      · have hf := List.mem_filter.mp h
        refine ⟨by simpa using hf.2, map_indices_mem hf.1⟩
      · simp at h

theorem search_on_the_fly_mem {env : Env} {target : Product}
    {pool : Option (List Product)} {pr : Product × ℚ}
    (h : pr ∈ search_on_the_fly env target pool) :
    pr.1.id ≠ target.id ∧
      pr.1 ∈ (match pool with | some l => l | none => env.all_products) := by
  simp only [search_on_the_fly] at h
  split at h
  · simp at h
  · rw [mem_sort_desc] at h
    obtain ⟨p, hp, hmap⟩ := List.mem_filterMap.mp h
    cases hs : env.fly_sim target p with
    | none => rw [hs] at hmap; simp at hmap
    | some s =>
        rw [hs] at hmap
        simp only [Option.map_some', Option.some.injEq] at hmap
        subst hmap
        have hfl := List.mem_filter.mp hp
        exact ⟨by simpa using hfl.2, hfl.1⟩

theorem search_stage_mem {env : Env} {target : Product}
    {pool : Option (List Product)} {pr : Product × ℚ}
    (h : pr ∈ (search_stage env target pool).1) :
    pr ∈ search_with_faiss env target ∨ pr ∈ search_on_the_fly env target pool := by
  simp only [search_stage] at h
  cases hb : env.use_faiss && env.has_index with
  | false =>
      rw [hb] at h
      simp only [Bool.false_eq_true, if_false, List.isEmpty_nil, if_true] at h
      exact Or.inr h
  | true =>
      rw [hb] at h
      simp only [if_true] at h
      split at h
      · exact Or.inr h
      · cases pool with
        | some cp =>
            simp only at h
            exact Or.inl (List.mem_filter.mp h).1
        | none => exact Or.inl h

theorem search_stage_tag (env : Env) (target : Product)
    (pool : Option (List Product)) :
    (search_stage env target pool).2 = "faiss" ∨
    (search_stage env target pool).2 = "on-the-fly" ∨
    (search_stage env target pool).1 = [] := by
  simp only [search_stage]
  cases hb : env.use_faiss && env.has_index with
  | false =>
      simp
  | true =>
      simp only [if_true]
      split
      · simp
      · simp

theorem gsp_eq_fallback {env : Env} {pid : String} {limit : ℕ} {opts : Opts}
    {target : Product} (ht : env.get_product pid = some target)
    (hc : (search_stage env target (category_pool env target opts.set_defaults)).1 = []) :
    get_similar_products env pid limit opts =
      ({ format_recommendation_response
           ((get_fallback_products env.all_products target limit).map
             (fun p => (p, (1:ℚ)/2))) (some target) with method := some "fallback" },
       if opts ≠ Opts.emptyDict then opts.set_defaults else opts) := by
  unfold get_similar_products
  simp only [ht]
  rw [hc]
  simp

theorem gsp_eq_pass1 {env : Env} {pid : String} {limit : ℕ} {opts : Opts}
    {target : Product} (ht : env.get_product pid = some target)
    (hc : (search_stage env target (category_pool env target opts.set_defaults)).1 ≠ [])
    (hf : apply_business_rules
        (search_stage env target (category_pool env target opts.set_defaults)).1
        target opts.set_defaults ≠ []) :
    get_similar_products env pid limit opts =
      ({ format_recommendation_response
           (rank_and_limit (apply_business_rules
             (search_stage env target (category_pool env target opts.set_defaults)).1
             target opts.set_defaults) limit) (some target) with
           method := some (search_stage env target
             (category_pool env target opts.set_defaults)).2 },
       if opts ≠ Opts.emptyDict then opts.set_defaults else opts) := by
  unfold get_similar_products
  simp only [ht]
  have hcc : (search_stage env target
      (category_pool env target opts.set_defaults)).1.isEmpty = false := by
    simpa [List.isEmpty_iff] using hc
  have hff : (apply_business_rules
      (search_stage env target (category_pool env target opts.set_defaults)).1
      target opts.set_defaults).isEmpty = false := by
    simpa [List.isEmpty_iff] using hf
  rw [hcc, hff]
  simp

theorem gsp_eq_relaxed {env : Env} {pid : String} {limit : ℕ} {opts : Opts}
    {target : Product} (ht : env.get_product pid = some target)
    (hc : (search_stage env target (category_pool env target opts.set_defaults)).1 ≠ [])
    (hf : apply_business_rules
        (search_stage env target (category_pool env target opts.set_defaults)).1
        target opts.set_defaults = []) :
    get_similar_products env pid limit opts =
      ({ format_recommendation_response
           (rank_and_limit (apply_business_rules
             (search_stage env target (category_pool env target opts.set_defaults)).1
             target (relax_opts opts.set_defaults)) limit) (some target) with
           method := some (search_stage env target
             (category_pool env target opts.set_defaults)).2 },
       if opts ≠ Opts.emptyDict then relax_opts opts.set_defaults else opts) := by
  unfold get_similar_products
  simp only [ht]
  have hcc : (search_stage env target
      (category_pool env target opts.set_defaults)).1.isEmpty = false := by
    simpa [List.isEmpty_iff] using hc
  have hff : (apply_business_rules
      (search_stage env target (category_pool env target opts.set_defaults)).1
      target opts.set_defaults).isEmpty = true := by
    simpa [List.isEmpty_iff] using hf
  rw [hcc, hff]
  simp

theorem beq_eq_decide {α : Type} [BEq α] [LawfulBEq α] [DecidableEq α] (a b : α) :
    (a == b) = decide (a = b) := by
  by_cases h : a = b <;> simp [h]

theorem category_matches_iff (target p : Product) :
    category_matches target p = true ↔ dims_ok target p := by
  unfold category_matches dims_ok
  cases h1 : truthy (category_fields_of target).1 <;>
  cases h2 : truthy (category_fields_of target).2.1 <;>
  cases h3 : truthy (category_fields_of target).2.2 <;>
  simp [beq_iff_eq, h1, h2, h3, and_assoc]

theorem search_stage_mem_pool {env : Env} {target : Product} {cp : List Product}
    {pr : Product × ℚ} (h : pr ∈ (search_stage env target (some cp)).1) :
    (pr ∈ search_with_faiss env target ∧ ∃ q ∈ cp, q.id = pr.1.id) ∨
      pr ∈ search_on_the_fly env target (some cp) := by
  simp only [search_stage] at h
  cases hb : env.use_faiss && env.has_index with
  | false =>
      rw [hb] at h
      simp only [Bool.false_eq_true, if_false, List.isEmpty_nil, if_true] at h
      exact Or.inr h
  | true =>
      rw [hb] at h
      simp only [if_true] at h
      split at h
      · exact Or.inr h
      · simp only at h
        have hf := List.mem_filter.mp h
        refine Or.inl ⟨hf.1, ?_⟩
        have hany := hf.2
        simp only [List.any_eq_true, beq_iff_eq] at hany
        exact hany

theorem mem_format_recs {pairs : List (Product × ℚ)} {t : Option Product}
    {m : Option String} {r : RecEntry}
    (h : r ∈ ({ format_recommendation_response pairs t with
        method := m }).recommendations) :
    ∃ pr ∈ pairs, r = RecEntry.mk pr.1 (round4 pr.2) := by
  simp only [format_recommendation_response] at h
  obtain ⟨pr, hpr, he⟩ := List.mem_map.mp h
  exact ⟨pr, hpr, he.symm⟩

/-! ### Claim theorems -/

/-- Claim C1 (amended): the scorer applies the soft adjustments in the
fixed order price → gender → usage → brand; each boost is capped at 1.0
and each penalty floored at 0.0 immediately at its own step, so the
running score stays inside [0,1] after every step whenever it enters the
step inside [0,1]; with the example target (price 100, Male, Acme) and
candidate (price 90, Male, same brand, base 0.70) under default options
the adjusted score is min(0.70+0.10+0.08+0.05, 1.0) = 0.93. -/
theorem c1_soft_adjustment_order :
    (∀ (pairs : List (Product × ℚ)) (target : Product) (opts : Opts)
        (p : Product) (s : ℚ), (p, s) ∈ apply_business_rules pairs target opts →
        s = brand_step (opts.brand_boost.getD (1/20)) target.brand p.brand
              (usage_step (opts.filter_usage.getD true) target.usage p.usage
                (gender_step (opts.filter_gender.getD true) target.gender p.gender
                  (price_step target.defaultPrice (opts.price_tolerance.getD (1/2))
                    p.defaultPrice (((scores_dict pairs).lookup p.id).getD 0))))) ∧
    (∀ (tp tol cp s : ℚ), 0 ≤ s → s ≤ 1 →
        0 ≤ price_step tp tol cp s ∧ price_step tp tol cp s ≤ 1) ∧
    (∀ (e : Bool) (tg cg : String) (s : ℚ), 0 ≤ s → s ≤ 1 →
        0 ≤ gender_step e tg cg s ∧ gender_step e tg cg s ≤ 1) ∧
    (∀ (e : Bool) (tu cu : String) (s : ℚ), 0 ≤ s → s ≤ 1 →
        0 ≤ usage_step e tu cu s ∧ usage_step e tu cu s ≤ 1) ∧
    (∀ (b : ℚ) (tb cb : String) (s : ℚ), 0 ≤ s → s ≤ 1 →
        0 ≤ brand_step b tb cb s ∧ brand_step b tb cb s ≤ 1) ∧
    apply_business_rules [(scen_cand, 7/10)] scen_target Opts.emptyDict
      = [(scen_cand, 93/100)] := by
  refine ⟨?_, ?_, ?_, ?_, ?_, ?_⟩
  · intro pairs target opts p s h
    rw [(apply_business_rules_mem h).2.1, adjust_score_eq_steps]
  · intro tp tol cp s h0 h1; exact price_step_unit tp tol cp h0 h1
  · intro e tg cg s h0 h1; exact gender_step_unit e tg cg h0 h1
  · intro e tu cu s h0 h1; exact usage_step_unit e tu cu h0 h1
  · intro b tb cb s h0 h1; exact brand_step_unit b tb cb h0 h1
  · norm_num +decide [apply_business_rules, scen_target, scen_cand, blank_product,
      Opts.emptyDict, scores_dict, dict_insert, filter_by_category, category_matches,
      category_fields_of, truthy, adjust_score, price_step, gender_step, usage_step,
      brand_step, lower_str, lower_char, sort_desc, insert_before, le_score, List.lookup]

/-- Claim C1, witness: the decomposition and the per-step [0,1]
preservation instantiated at the scenario inputs. -/
theorem c1_soft_adjustment_order_witness :
    ((scen_cand, (93:ℚ)/100) ∈ apply_business_rules [(scen_cand, 7/10)] scen_target
        Opts.emptyDict ∧
      (93:ℚ)/100 = brand_step ((Opts.emptyDict).brand_boost.getD (1/20))
        scen_target.brand scen_cand.brand
        (usage_step ((Opts.emptyDict).filter_usage.getD true) scen_target.usage
          scen_cand.usage
          (gender_step ((Opts.emptyDict).filter_gender.getD true) scen_target.gender
            scen_cand.gender
            (price_step scen_target.defaultPrice
              ((Opts.emptyDict).price_tolerance.getD (1/2)) scen_cand.defaultPrice
              (((scores_dict [(scen_cand, 7/10)]).lookup scen_cand.id).getD 0))))) ∧
    (0 ≤ price_step 100 (1/2) 90 (7/10) ∧ price_step 100 (1/2) 90 (7/10) ≤ 1) := by
  have hmem : (scen_cand, (93:ℚ)/100) ∈ apply_business_rules [(scen_cand, 7/10)]
      scen_target Opts.emptyDict := by
    rw [c1_soft_adjustment_order.2.2.2.2.2]
    exact List.mem_singleton.mpr rfl
  exact ⟨⟨hmem, c1_soft_adjustment_order.1 _ _ _ _ _ hmem⟩,
    c1_soft_adjustment_order.2.1 100 (1/2) 90 (7/10) (by norm_num) (by norm_num)⟩

/-- Claim C1, counterexample: with a negative base similarity the price
boost step leaves the running score negative — `min(-0.5+0.10, 1.0) =
-0.4` — so the scorer's output score lies outside [0,1], contradicting
"clamping the running score into [0,1] immediately after each step". -/
theorem c1_counterexample :
    apply_business_rules [(in_range_cand, -(1/2))] price_only_target Opts.emptyDict
      = [(in_range_cand, -(2/5))] ∧ (-(2/5) : ℚ) < 0 := by
  constructor
  · norm_num +decide [apply_business_rules, price_only_target, in_range_cand,
      blank_product, Opts.emptyDict, scores_dict, dict_insert, filter_by_category,
      category_matches, category_fields_of, truthy, adjust_score, price_step,
      gender_step, usage_step, brand_step, lower_str, lower_char, sort_desc,
      insert_before, le_score, List.lookup]
  · norm_num

/-- Claim C3 (amended): the price adjustment adds +0.10 exactly when the
target price is positive, the candidate price is positive, and the
candidate price lies within ±price_tolerance of the target; it subtracts
0.05 when both prices are positive and the candidate is outside the
range; it is a no-op when the target price is 0/absent or the candidate
price is 0/absent. -/
theorem c3_price_adjustment_cases :
    (∀ tp tol cp s : ℚ, 0 < tp → 0 < cp → tp * (1 - tol) ≤ cp →
        cp ≤ tp * (1 + tol) → price_step tp tol cp s = min (s + 1/10) 1) ∧
    (∀ tp tol cp s : ℚ, 0 < tp → 0 < cp →
        (cp < tp * (1 - tol) ∨ tp * (1 + tol) < cp) →
        price_step tp tol cp s = max (s - 1/20) 0) ∧
    (∀ tp tol cp s : ℚ, tp ≤ 0 → price_step tp tol cp s = s) ∧
    (∀ tp tol cp s : ℚ, cp ≤ 0 → price_step tp tol cp s = s) := by
  refine ⟨?_, ?_, ?_, ?_⟩
  · intro tp tol cp s h1 h2 h3 h4
    unfold price_step
    rw [if_pos h1, if_pos h2, if_pos ⟨h3, h4⟩]
  · intro tp tol cp s h1 h2 h3
    unfold price_step
    rw [if_pos h1, if_pos h2, if_neg]
    rintro ⟨ha, hb⟩
    rcases h3 with h | h <;> linarith
  · intro tp tol cp s h1
    unfold price_step
    rw [if_neg (by linarith)]
  · intro tp tol cp s h2
    unfold price_step
    split_ifs with ha hb
    · linarith
    · linarith
    · rfl
    · rfl

/-- Claim C3, witness: the four cases instantiated at concrete prices. -/
theorem c3_price_adjustment_cases_witness :
    price_step 100 (1/2) 90 (7/10) = min ((7:ℚ)/10 + 1/10) 1 ∧
    price_step 100 (1/2) 200 (7/10) = max ((7:ℚ)/10 - 1/20) 0 ∧
    price_step 0 (1/2) 90 (7/10) = 7/10 ∧
    price_step 100 (1/2) 0 (7/10) = 7/10 :=
  ⟨c3_price_adjustment_cases.1 100 (1/2) 90 (7/10) (by norm_num) (by norm_num)
      (by norm_num) (by norm_num),
    c3_price_adjustment_cases.2.1 100 (1/2) 200 (7/10) (by norm_num) (by norm_num)
      (Or.inr (by norm_num)),
    c3_price_adjustment_cases.2.2.1 0 (1/2) 90 (7/10) (by norm_num),
    c3_price_adjustment_cases.2.2.2 100 (1/2) 0 (7/10) (by norm_num)⟩

/-- Claim C3, counterexample: a candidate whose own price is 0/absent is
a no-op, not the claimed −0.05 penalty: against a target priced 100, a
zero-priced candidate with base 0.5 keeps score 0.5 (the claim predicts
0.45). -/
theorem c3_counterexample :
    price_step 100 (1/2) 0 (1/2) = 1/2 ∧
    apply_business_rules [(zero_price_cand, 1/2)] price_only_target Opts.emptyDict
      = [(zero_price_cand, 1/2)] ∧
    ¬ ((1/2 : ℚ) = 1/2 - 1/20) := by
  refine ⟨?_, ?_, by norm_num⟩
  · norm_num [price_step]
  · norm_num +decide [apply_business_rules, price_only_target, zero_price_cand,
      blank_product, Opts.emptyDict, scores_dict, dict_insert, filter_by_category,
      category_matches, category_fields_of, truthy, adjust_score, price_step,
      gender_step, usage_step, brand_step, lower_str, lower_char, sort_desc,
      insert_before, le_score, List.lookup]

/-- Claim C4 (amended): when `min_similarity` is positive, every
candidate whose adjusted score is below it is dropped, so every candidate
in the scorer's output scores at least `min_similarity`; at
`min_similarity = 0` the threshold filter is skipped entirely, so
candidates with negative adjusted scores survive. -/
theorem c4_threshold_filter (pairs : List (Product × ℚ)) (target : Product)
    (opts : Opts) (p : Product) (s : ℚ)
    (hm : 0 < opts.min_similarity.getD 0)
    (h : (p, s) ∈ apply_business_rules pairs target opts) :
    opts.min_similarity.getD 0 ≤ s :=
  (apply_business_rules_mem h).2.2.2 hm

set_option maxHeartbeats 1000000 in
/-- Claim C4, witness: the threshold instantiated at `min_similarity =
0.6` on the scenario run. -/
theorem c4_threshold_filter_witness :
    (0 : ℚ) < ({ Opts.emptyDict with min_similarity := some (3/5) } : Opts).min_similarity.getD 0 ∧
    (scen_cand, (93:ℚ)/100) ∈ apply_business_rules [(scen_cand, 7/10)] scen_target
      { Opts.emptyDict with min_similarity := some (3/5) } ∧
    ({ Opts.emptyDict with min_similarity := some (3/5) } : Opts).min_similarity.getD 0
      ≤ (93:ℚ)/100 := by
  have hmem : (scen_cand, (93:ℚ)/100) ∈ apply_business_rules [(scen_cand, 7/10)]
      scen_target { Opts.emptyDict with min_similarity := some (3/5) } := by
    have : apply_business_rules [(scen_cand, 7/10)] scen_target
        { Opts.emptyDict with min_similarity := some (3/5) }
        = [(scen_cand, 93/100)] := by
      norm_num +decide [apply_business_rules, scen_target, scen_cand, blank_product,
        Opts.emptyDict, scores_dict, dict_insert, filter_by_category, category_matches,
        category_fields_of, truthy, adjust_score, price_step, gender_step, usage_step,
        brand_step, lower_str, lower_char, sort_desc, insert_before, le_score,
        List.lookup, List.filter_cons, List.filter_nil, decide_eq_true_eq]
    rw [this]
    exact List.mem_singleton.mpr rfl
  exact ⟨by norm_num, hmem,
    c4_threshold_filter _ _ _ _ _ (by norm_num) hmem⟩

/-- Claim C4, counterexample: at the scorer's default `min_similarity =
0`, a candidate with a negative adjusted score (−0.5, which is strictly
below the threshold) is NOT dropped: the filter is only applied when the
threshold is positive. -/
theorem c4_counterexample :
    apply_business_rules [(neutral_cand, -(1/2))] neutral_target Opts.emptyDict
      = [(neutral_cand, -(1/2))] ∧ (-(1/2) : ℚ) < 0 ∧
    (Opts.emptyDict).min_similarity.getD 0 = 0 := by
  refine ⟨?_, by norm_num, rfl⟩
  norm_num +decide [apply_business_rules, neutral_target, neutral_cand,
    blank_product, Opts.emptyDict, scores_dict, dict_insert, filter_by_category,
    category_matches, category_fields_of, truthy, adjust_score, price_step,
    gender_step, usage_step, brand_step, lower_str, lower_char, sort_desc,
    insert_before, le_score, List.lookup]

/-- Claim C7: with `same_category_only=true` no returned candidate
differs from the target on a category dimension that is non-empty on the
target, and empty target dimensions impose no constraint (a candidate
with extra category specificity survives the filter); the invariant is
stated for the hard filter itself (membership characterization), for the
scorer's output, and for a whole request's recommendation list (for a
catalog snapshot with distinct product ids). -/
theorem c7_category_invariant :
    (∀ (products : List Product) (target p : Product),
        p ∈ filter_by_category products target true ↔
          p ∈ products ∧ dims_ok target p) ∧
    (∀ (pairs : List (Product × ℚ)) (target : Product) (opts : Opts)
        (p : Product) (s : ℚ), opts.same_category_only.getD true = true →
        (p, s) ∈ apply_business_rules pairs target opts → dims_ok target p) ∧
    (∀ (env : Env) (pid : String) (limit : ℕ) (opts : Opts) (target : Product)
        (r : RecEntry), (env.all_products.map Product.id).Nodup →
        env.get_product pid = some target →
        opts.same_category_only.getD true = true →
        r ∈ (get_similar_products env pid limit opts).1.recommendations →
        dims_ok target r.product) := by
  refine ⟨?_, ?_, ?_⟩
  · intro products target p
    rw [filter_by_category_true]
    simp [List.mem_filter, category_matches_iff]
  · intro pairs target opts p s hsc h
    exact (category_matches_iff target p).mp ((apply_business_rules_mem h).2.2.1 hsc)
  · intro env pid limit opts target r hnd ht hsc hr
    have hsc' : (opts.set_defaults).same_category_only.getD true = true := by
      simp [Opts.set_defaults, hsc]
    have hpool : category_pool env target opts.set_defaults =
        some (env.all_products.filter (fun p => category_matches target p)) := by
      simp [category_pool, hsc']
    have hfromsr : ∀ pr : Product × ℚ,
        pr ∈ (search_stage env target (category_pool env target opts.set_defaults)).1 →
        dims_ok target pr.1 := by
      intro pr hpr
      rw [hpool] at hpr
      rcases search_stage_mem_pool hpr with ⟨hfaiss, q, hq, hid⟩ | hfly
      · have hq' := List.mem_filter.mp hq
        have hmemall := (search_with_faiss_mem hfaiss).2
        have : q = pr.1 :=
          List.inj_on_of_nodup_map hnd hq'.1 hmemall hid
        exact (category_matches_iff target pr.1).mp (this ▸ hq'.2)
      · have := (search_on_the_fly_mem hfly).2
        simp only at this
        exact (category_matches_iff target pr.1).mp (List.mem_filter.mp this).2
    have habr : ∀ (o' : Opts) (p : Product) (s : ℚ),
        (p, s) ∈ apply_business_rules
          (search_stage env target (category_pool env target opts.set_defaults)).1
          target o' → dims_ok target p := by
      intro o' p s h
      have hp := (apply_business_rules_mem h).1
      obtain ⟨pr, hpr, he⟩ := List.mem_map.mp hp
      exact he ▸ hfromsr pr hpr
    by_cases hc : (search_stage env target
        (category_pool env target opts.set_defaults)).1 = []
    · rw [gsp_eq_fallback ht hc] at hr
      obtain ⟨pr, hpr, he⟩ := mem_format_recs hr
      obtain ⟨p, hp, he2⟩ := List.mem_map.mp hpr
      have hfb := mem_get_fallback_products hp
      rw [he]
      have : pr.1 = p := by rw [← he2]
      rw [this]
      exact (category_matches_iff target p).mp hfb.2.2
    · by_cases hf : apply_business_rules
          (search_stage env target (category_pool env target opts.set_defaults)).1
          target opts.set_defaults = []
      · rw [gsp_eq_relaxed ht hc hf] at hr
        obtain ⟨pr, hpr, he⟩ := mem_format_recs hr
        have := habr _ pr.1 pr.2 (mem_rank_and_limit hpr)
        rw [he]
        exact this
      · rw [gsp_eq_pass1 ht hc hf] at hr
        obtain ⟨pr, hpr, he⟩ := mem_format_recs hr
        have := habr _ pr.1 pr.2 (mem_rank_and_limit hpr)
        rw [he]
        exact this

set_option maxHeartbeats 4000000 in
/-- Claim C7, witness: the request-level invariant applied on a concrete
run whose catalog has distinct ids and whose response carries one
recommendation. -/
theorem c7_category_invariant_witness :
    (env_hit.all_products.map Product.id).Nodup ∧
    env_hit.get_product "t" = some shirt_target ∧
    (Opts.emptyDict).same_category_only.getD true = true ∧
    RecEntry.mk shirt_high (9/10) ∈
      (get_similar_products env_hit "t" 6 Opts.emptyDict).1.recommendations ∧
    dims_ok shirt_target shirt_high := by
  have hnd : (env_hit.all_products.map Product.id).Nodup := by
    simp [env_hit, shirt_target, shirt_high, blank_product]
  have hget : env_hit.get_product "t" = some shirt_target := by
    simp [env_hit]
  have hrec : (get_similar_products env_hit "t" 6 Opts.emptyDict).1.recommendations
      = [RecEntry.mk shirt_high (9/10)] := by
    norm_num +decide [get_similar_products, env_hit, shirt_target, shirt_high,
      blank_product, Opts.emptyDict, Opts.set_defaults, category_pool, search_stage,
      search_with_faiss, search_on_the_fly, map_indices_to_products, build_product_maps,
      get_first_image, get_product_images, strip_truthy, is_space_char, dict_insert,
      List.lookup, apply_business_rules, scores_dict, filter_by_category,
      category_matches, category_fields_of, truthy, adjust_score, price_step,
      gender_step, usage_step, brand_step, lower_str, lower_char, rank_and_limit,
      sort_desc, insert_before, le_score, format_recommendation_response, round4,
      round_half_even, relax_opts, get_fallback_products, le_created,
      List.filter_cons, List.filter_nil, decide_eq_true_eq, beq_eq_decide]
  have hmem : RecEntry.mk shirt_high (9/10) ∈
      (get_similar_products env_hit "t" 6 Opts.emptyDict).1.recommendations := by
    rw [hrec]
    exact List.mem_singleton.mpr rfl
  exact ⟨hnd, hget, rfl, hmem,
    c7_category_invariant.2.2 env_hit "t" 6 Opts.emptyDict shirt_target
      (RecEntry.mk shirt_high (9/10)) hnd hget rfl hmem⟩

theorem row_body_eq_reconcile (aps : List Product) (paths : List String)
    (pids : Option (List String)) (i : ℕ) :
    (match (match pids with
        | some ids =>
            if !ids.isEmpty && decide (i < ids.length) then
              (build_product_maps aps).2.lookup (ids.getD i "")
            else none
        | none => none : Option Product) with
     | some p => some p
     | none =>
         match (build_product_maps aps).1.lookup (paths.getD i "") with
         | some p => some p
         | none =>
             match (build_product_maps aps).1.find?
                 (fun kv => images_match (paths.getD i "") kv.1) with
             | some kv => some kv.2
             | none => none) = reconcile_row aps paths pids i := by
  simp only [reconcile_row, strategy_catalog_id, strategy_exact_locator,
    strategy_fuzzy_locator]
  cases h1 : (match pids with
      | some ids =>
          if !ids.isEmpty && decide (i < ids.length) then
            (build_product_maps aps).2.lookup (ids.getD i "")
          else none
      | none => none : Option Product) with
  | some p => rfl
  | none =>
      cases h2 : (build_product_maps aps).1.lookup (paths.getD i "") with
      | some p => rfl
      | none =>
          cases h3 : (build_product_maps aps).1.find?
              (fun kv => images_match (paths.getD i "") kv.1) with
          | some kv => rfl
          | none => rfl

theorem map_indices_eq_reconcile (aps : List Product) (ips : Option (List String))
    (pids : Option (List String)) (rows : List (ℤ × ℚ)) :
    map_indices_to_products aps ips pids rows =
      match ips with
      | none => []
      | some paths =>
          if paths.length = 0 then []
          else
            rows.filterMap (fun row =>
              if 0 ≤ row.1 ∧ row.1 < (paths.length : ℤ) then
                (reconcile_row aps paths pids row.1.toNat).map (fun p => (p, row.2))
              else none) := by
  unfold map_indices_to_products
  cases ips with
  | none => rfl
  | some paths =>
      by_cases hl : paths.length = 0
      · simp [hl]
      · simp only [hl, if_false]
        suffices hgen : ∀ (rows : List (ℤ × ℚ)) (acc : List (Product × ℚ)),
            rows.foldl (fun (acc : List (Product × ℚ)) (row : ℤ × ℚ) =>
              if row.1 < 0 ∨ (paths.length : ℤ) ≤ row.1 then acc
              else
                let i := row.1.toNat
                let p1 : Option Product :=
                  match pids with
                  | some ids =>
                      if !ids.isEmpty && decide (i < ids.length) then
                        (build_product_maps aps).2.lookup (ids.getD i "")
                      else none
                  | none => none
                let p2 : Option Product :=
                  match p1 with
                  | some p => some p
                  | none =>
                      let image_url := paths.getD i ""
                      match (build_product_maps aps).1.lookup image_url with
                      | some p => some p
                      | none =>
                          match (build_product_maps aps).1.find?
                              (fun kv => images_match image_url kv.1) with
                          | some kv => some kv.2
                          | none => none
                match p2 with
                | some p => acc ++ [(p, row.2)]
                | none => acc) acc
              = acc ++ rows.filterMap (fun row =>
                  if 0 ≤ row.1 ∧ row.1 < (paths.length : ℤ) then
                    (reconcile_row aps paths pids row.1.toNat).map (fun p => (p, row.2))
                  else none) by
          rw [hgen rows []]
          rfl
        intro rows
        induction rows with
        | nil => intro acc; simp
        | cons row rest ih =>
            intro acc
            rw [List.foldl_cons, List.filterMap_cons]
            by_cases hskip : row.1 < 0 ∨ (paths.length : ℤ) ≤ row.1
            · rw [if_pos hskip]
              have hnotin : ¬(0 ≤ row.1 ∧ row.1 < (paths.length : ℤ)) := by
                rcases hskip with h | h
                · rintro ⟨h0, _⟩; omega
                · rintro ⟨_, h1⟩; omega
              rw [if_neg hnotin, ih]
            · rw [if_neg hskip]
              have hin : 0 ≤ row.1 ∧ row.1 < (paths.length : ℤ) := by omega
              rw [if_pos hin]
              simp only
              rw [row_body_eq_reconcile aps paths pids row.1.toNat]
              cases hrec : reconcile_row aps paths pids row.1.toNat with
              | some p => rw [ih]; simp
              | none => rw [ih]; simp

/-- Claim C5: identity reconciliation tries the strategies in order —
exact catalog-id match, then exact image-locator string match, then
normalized-locator/substring match — first success wins, and a row
matching no strategy is dropped rather than substituted (stated as: the
mapping loop equals the filter-map of the strategy chain over the
in-bounds rows).  In particular, a row whose recorded locator
(`https://old/img_gone.png`) matches no live item but whose recorded
catalog id (`p1`) does is reconciled via the catalog-id strategy, not
dropped. -/
theorem c5_reconciliation_strategy_order :
    (∀ (aps : List Product) (ips : Option (List String))
        (pids : Option (List String)) (rows : List (ℤ × ℚ)),
        map_indices_to_products aps ips pids rows =
          match ips with
          | none => []
          | some paths =>
              if paths.length = 0 then []
              else
                rows.filterMap (fun row =>
                  if 0 ≤ row.1 ∧ row.1 < (paths.length : ℤ) then
                    (reconcile_row aps paths pids row.1.toNat).map
                      (fun p => (p, row.2))
                  else none)) ∧
    strategy_exact_locator (build_product_maps [live_item]).1
      "https://old/img_gone.png" = none ∧
    strategy_fuzzy_locator (build_product_maps [live_item]).1
      "https://old/img_gone.png" = none ∧
    strategy_catalog_id (build_product_maps [live_item]).2 (some ["p1"]) 0
      = some live_item ∧
    map_indices_to_products [live_item] (some ["https://old/img_gone.png"])
      (some ["p1"]) [(0, 9/10)] = [(live_item, 9/10)] := by
  refine ⟨map_indices_eq_reconcile, ?_, ?_, ?_, ?_⟩
  · norm_num +decide [strategy_exact_locator, build_product_maps, live_item,
      blank_product, get_first_image, get_product_images, strip_truthy,
      is_space_char, dict_insert, List.lookup, beq_eq_decide]
  · norm_num +decide [strategy_fuzzy_locator, build_product_maps, live_item,
      blank_product, get_first_image, get_product_images, strip_truthy,
      is_space_char, dict_insert, images_match, extract_public_id, str_contains,
      contains_sub, break_on_sub, split_on_char, join_with_char, beq_eq_decide]
  · norm_num +decide [strategy_catalog_id, build_product_maps, live_item,
      blank_product, get_first_image, get_product_images, strip_truthy,
      is_space_char, dict_insert, List.lookup, beq_eq_decide]
  · norm_num +decide [map_indices_to_products, build_product_maps, live_item,
      blank_product, get_first_image, get_product_images, strip_truthy,
      is_space_char, dict_insert, List.lookup, images_match, extract_public_id,
      str_contains, contains_sub, break_on_sub, split_on_char, join_with_char,
      beq_eq_decide]

set_option maxHeartbeats 1000000 in
theorem abr_prefilter_eq (pairs : List (Product × ℚ)) (target : Product)
    (opts : Opts) (hsc : opts.same_category_only.getD true = true)
    (hnd : (pairs.map (fun pr => pr.1.id)).Nodup) :
    apply_business_rules (pairs.filter (fun pr => category_matches target pr.1))
        target opts
      = apply_business_rules pairs target opts := by
  have hprod : (pairs.filter (fun pr => category_matches target pr.1)).map Prod.fst
      = (pairs.map Prod.fst).filter (fun p => category_matches target p) := by
    rw [List.filter_map]
    rfl
  simp only [apply_business_rules]
  by_cases hpe : pairs.isEmpty
  · have hp0 : pairs = [] := List.isEmpty_iff.mp hpe
    subst hp0
    simp
  · by_cases hfpe : (pairs.filter (fun pr => category_matches target pr.1)).isEmpty
    · rw [if_pos hfpe, if_neg hpe, if_pos hsc, filter_by_category_true]
      have hempty : (pairs.map Prod.fst).filter (fun p => category_matches target p)
          = [] := by
        rw [← hprod]
        rw [List.isEmpty_iff.mp hfpe]
        rfl
      rw [hempty]
      simp [sort_desc]
    · rw [if_neg hpe, if_neg hfpe, if_pos hsc, if_pos hsc,
        filter_by_category_true, filter_by_category_true, hprod]
      have hA : ((pairs.map Prod.fst).filter
            (fun p => category_matches target p)).filter
            (fun p => category_matches target p)
          = (pairs.map Prod.fst).filter (fun p => category_matches target p) := by
        rw [List.filter_filter]
        exact List.filter_congr (fun a _ => by simp [Bool.and_self])
      rw [hA]
      have hnd2 : ((pairs.filter (fun pr => category_matches target pr.1)).map
          (fun pr => pr.1.id)).Nodup :=
        List.Nodup.sublist (List.Sublist.map _ (List.filter_sublist pairs)) hnd
      have hmap : ((pairs.map Prod.fst).filter
            (fun p => category_matches target p)).map
            (fun p => (p, adjust_score opts target p
              (((scores_dict (pairs.filter
                (fun pr => category_matches target pr.1))).lookup p.id).getD 0)))
          = ((pairs.map Prod.fst).filter (fun p => category_matches target p)).map
            (fun p => (p, adjust_score opts target p
              (((scores_dict pairs).lookup p.id).getD 0))) := by
        apply List.map_congr_left
        intro p hp
        have hpm := List.mem_filter.mp hp
        obtain ⟨pr, hpr, he⟩ := List.mem_map.mp hpm.1
        have hprf : pr ∈ pairs.filter (fun pr => category_matches target pr.1) :=
          List.mem_filter.mpr ⟨hpr, by rw [he]; exact hpm.2⟩
        have h1 := scores_dict_lookup_nodup hnd2
          (show (pr.1, pr.2) ∈ pairs.filter (fun pr => category_matches target pr.1)
            from by simpa using hprf)
        have h2 := scores_dict_lookup_nodup hnd
          (show (pr.1, pr.2) ∈ pairs from by simpa using hpr)
        rw [he] at h1 h2
        rw [h1, h2]
      rw [hmap]

/-- Claim C8 (amended): for a single scoring pass the category pre-filter
is equivalent to the scorer's internal post-reconciliation hard filter
(for candidate lists with distinct product ids), and with
`same_category_only=false` the pre-filter is skipped so the two pipelines
coincide; through the relax-and-retry path, however, the pre-filter is
observable (see the counterexample), because relaxing
`same_category_only` cannot resurrect candidates already excluded from
the pre-filtered pool. -/
theorem c8_prefilter_single_pass_equivalence :
    (∀ (pairs : List (Product × ℚ)) (target : Product) (opts : Opts),
        opts.same_category_only.getD true = true →
        (pairs.map (fun pr => pr.1.id)).Nodup →
        apply_business_rules
            (pairs.filter (fun pr => category_matches target pr.1)) target opts
          = apply_business_rules pairs target opts) ∧
    (∀ (env : Env) (pid : String) (limit : ℕ) (opts : Opts),
        opts.same_category_only = some false →
        get_similar_products env pid limit opts
          = get_similar_products_postfiltered env pid limit opts) := by
  constructor
  · intro pairs target opts hsc hnd
    exact abr_prefilter_eq pairs target opts hsc hnd
  · intro env pid limit opts hsc
    unfold get_similar_products get_similar_products_postfiltered
    cases ht : env.get_product pid with
    | none => rfl
    | some target =>
        have hpool : category_pool env target opts.set_defaults = none := by
          simp [category_pool, Opts.set_defaults, hsc]
        simp only [hpool]

set_option maxHeartbeats 1000000 in
/-- Claim C8, witness: both equivalences applied at concrete inputs. -/
theorem c8_prefilter_single_pass_equivalence_witness :
    ((Opts.emptyDict).same_category_only.getD true = true ∧
      (([(shirt_low, (1:ℚ)/2), (pants_high, 9/10)]).map
        (fun pr : Product × ℚ => pr.1.id)).Nodup ∧
      apply_business_rules (([(shirt_low, (1:ℚ)/2), (pants_high, 9/10)]).filter
          (fun pr => category_matches shirt_target pr.1)) shirt_target Opts.emptyDict
        = apply_business_rules [(shirt_low, (1:ℚ)/2), (pants_high, 9/10)]
            shirt_target Opts.emptyDict) ∧
    (({ Opts.emptyDict with same_category_only := some false } : Opts).same_category_only
        = some false ∧
      get_similar_products env_hit "t" 6
          { Opts.emptyDict with same_category_only := some false }
        = get_similar_products_postfiltered env_hit "t" 6
            { Opts.emptyDict with same_category_only := some false }) := by
  have hnd : (([(shirt_low, (1:ℚ)/2), (pants_high, 9/10)]).map
      (fun pr : Product × ℚ => pr.1.id)).Nodup := by
    simp [shirt_low, pants_high, blank_product]
  exact ⟨⟨rfl, hnd,
      c8_prefilter_single_pass_equivalence.1 _ shirt_target Opts.emptyDict rfl hnd⟩,
    ⟨rfl, c8_prefilter_single_pass_equivalence.2 env_hit "t" 6 _ rfl⟩⟩

set_option maxHeartbeats 4000000 in
/-- Claim C8, counterexample: on a snapshot where FAISS offers a
same-category candidate below the threshold and a cross-category
candidate above it, the pre-filtered pipeline ends empty even after the
relax-and-retry pass, while post-reconciliation filtering returns the
cross-category candidate after relaxation — the pre-filter is not a pure
optimization. -/
theorem c8_counterexample :
    (get_similar_products env_mixed "t" 6 Opts.emptyDict).1.recommendations = [] ∧
    (get_similar_products_postfiltered env_mixed "t" 6
        Opts.emptyDict).1.recommendations = [RecEntry.mk pants_high (9/10)] ∧
    get_similar_products env_mixed "t" 6 Opts.emptyDict
      ≠ get_similar_products_postfiltered env_mixed "t" 6 Opts.emptyDict := by
  have h1 : (get_similar_products env_mixed "t" 6 Opts.emptyDict).1.recommendations
      = [] := by
    norm_num +decide [get_similar_products, env_mixed, shirt_target, shirt_low,
      pants_high, blank_product, Opts.emptyDict, Opts.set_defaults, category_pool,
      search_stage, search_with_faiss, search_on_the_fly, map_indices_to_products,
      build_product_maps, get_first_image, get_product_images, strip_truthy,
      is_space_char, dict_insert, List.lookup, apply_business_rules, scores_dict,
      filter_by_category, category_matches, category_fields_of, truthy, adjust_score,
      price_step, gender_step, usage_step, brand_step, lower_str, lower_char,
      rank_and_limit, sort_desc, insert_before, le_score,
      format_recommendation_response, round4, round_half_even, relax_opts,
      get_fallback_products, le_created, List.filter_cons, List.filter_nil,
      decide_eq_true_eq, beq_eq_decide]
  have h2 : (get_similar_products_postfiltered env_mixed "t" 6
      Opts.emptyDict).1.recommendations = [RecEntry.mk pants_high (9/10)] := by
    norm_num +decide [get_similar_products_postfiltered, env_mixed, shirt_target,
      shirt_low, pants_high, blank_product, Opts.emptyDict, Opts.set_defaults,
      search_stage, search_with_faiss, search_on_the_fly, map_indices_to_products,
      build_product_maps, get_first_image, get_product_images, strip_truthy,
      is_space_char, dict_insert, List.lookup, apply_business_rules, scores_dict,
      filter_by_category, category_matches, category_fields_of, truthy, adjust_score,
      price_step, gender_step, usage_step, brand_step, lower_str, lower_char,
      rank_and_limit, sort_desc, insert_before, le_score,
      format_recommendation_response, round4, round_half_even, relax_opts,
      get_fallback_products, le_created, List.filter_cons, List.filter_nil,
      decide_eq_true_eq, beq_eq_decide]
  refine ⟨h1, h2, fun he => ?_⟩
  rw [he, h2] at h1
  simp at h1

theorem gsp_eq_notfound {env : Env} {pid : String} {limit : ℕ} {opts : Opts}
    (ht : env.get_product pid = none) :
    get_similar_products env pid limit opts =
      ({ error := some "Product not found", recommendations := [], count := 0,
         targetProduct := none, method := none },
       if opts ≠ Opts.emptyDict then opts.set_defaults else opts) := by
  unfold get_similar_products
  simp only [ht]

/-- Claim C2 (amended): when the first scoring pass at the caller's
(default-filled) options is empty, the engine retries the scoring exactly
once with `price_tolerance=1.0` and `same_category_only=false`, and the
response is the ranked result of that single retried pass under the
search method tag; if the retried pass is also empty the response is an
empty recommendation list still tagged with the search method, NOT
`method="fallback"`.  The recency fallback (`method="fallback"`,
same-category items newest-first at flat score 0.5) is used exactly when
the search stage itself produced zero candidates.  No branch raises: every
outcome is a well-formed response value. -/
theorem c2_relax_retry_and_fallback :
    (∀ o : Opts, (relax_opts o).price_tolerance = some 1 ∧
        (relax_opts o).same_category_only = some false ∧
        (relax_opts o).min_similarity = o.min_similarity) ∧
    (∀ (env : Env) (pid : String) (limit : ℕ) (opts : Opts) (target : Product),
        env.get_product pid = some target →
        (search_stage env target (category_pool env target opts.set_defaults)).1 ≠ [] →
        apply_business_rules
            (search_stage env target (category_pool env target opts.set_defaults)).1
            target opts.set_defaults = [] →
        (get_similar_products env pid limit opts).1.recommendations
            = (rank_and_limit (apply_business_rules
                (search_stage env target (category_pool env target opts.set_defaults)).1
                target (relax_opts opts.set_defaults)) limit).map
                (fun pr => RecEntry.mk pr.1 (round4 pr.2)) ∧
          (get_similar_products env pid limit opts).1.method
            = some (search_stage env target (category_pool env target opts.set_defaults)).2 ∧
          (get_similar_products env pid limit opts).1.method ≠ some "fallback" ∧
          (apply_business_rules
              (search_stage env target (category_pool env target opts.set_defaults)).1
              target (relax_opts opts.set_defaults) = [] →
            (get_similar_products env pid limit opts).1.recommendations = [])) ∧
    (∀ (env : Env) (pid : String) (limit : ℕ) (opts : Opts) (target : Product),
        env.get_product pid = some target →
        (search_stage env target (category_pool env target opts.set_defaults)).1 = [] →
        (get_similar_products env pid limit opts).1.method = some "fallback" ∧
        (get_similar_products env pid limit opts).1.recommendations
          = ((get_fallback_products env.all_products target limit).map
              (fun p => (p, (1:ℚ)/2))).map (fun pr => RecEntry.mk pr.1 (round4 pr.2))) := by
  refine ⟨fun o => ⟨rfl, rfl, rfl⟩, ?_, ?_⟩
  · intro env pid limit opts target ht hc hf
    rw [gsp_eq_relaxed ht hc hf]
    have htag := search_stage_tag env target (category_pool env target opts.set_defaults)
    rcases htag with htag | htag | htag
    · refine ⟨rfl, rfl, ?_, ?_⟩
      · rw [htag]; simp
      · intro h2; rw [h2]; rfl
    · refine ⟨rfl, rfl, ?_, ?_⟩
      · rw [htag]; simp
      · intro h2; rw [h2]; rfl
    · exact absurd htag hc
  · intro env pid limit opts target ht hc
    rw [gsp_eq_fallback ht hc]
    exact ⟨rfl, rfl⟩

set_option maxHeartbeats 1000000 in
/-- Claim C2, witness: the fallback leg applied on a concrete environment
whose search stage finds nothing (no FAISS, target embedding fails), so
the response is the recency fallback. -/
theorem c2_relax_retry_and_fallback_witness :
    (relax_opts (Opts.emptyDict)).price_tolerance = some 1 ∧
    env_fallback.get_product "t" = some shirt_target ∧
    (search_stage env_fallback shirt_target
      (category_pool env_fallback shirt_target (Opts.emptyDict).set_defaults)).1 = [] ∧
    (get_similar_products env_fallback "t" 6 Opts.emptyDict).1.method
      = some "fallback" ∧
    (get_similar_products env_fallback "t" 6 Opts.emptyDict).1.recommendations
      = ((get_fallback_products env_fallback.all_products shirt_target 6).map
          (fun p => (p, (1:ℚ)/2))).map (fun pr => RecEntry.mk pr.1 (round4 pr.2)) := by
  have hget : env_fallback.get_product "t" = some shirt_target := by
    simp [env_fallback]
  have hc : (search_stage env_fallback shirt_target
      (category_pool env_fallback shirt_target (Opts.emptyDict).set_defaults)).1
      = [] := by
    norm_num +decide [search_stage, env_fallback, shirt_target, shirt_low,
      blank_product, Opts.emptyDict, Opts.set_defaults, category_pool,
      search_with_faiss, search_on_the_fly, category_matches, category_fields_of,
      truthy, get_first_image, get_product_images, strip_truthy, is_space_char]
  have h := c2_relax_retry_and_fallback.2.2 env_fallback "t" 6 Opts.emptyDict
    shirt_target hget hc
  exact ⟨c2_relax_retry_and_fallback.1 Opts.emptyDict |>.1, hget, hc, h.1, h.2⟩

set_option maxHeartbeats 4000000 in
/-- Claim C2, counterexample: the search stage yields one candidate whose
score 0.1 fails the default 0.6 threshold, the retried relaxed pass is
also empty, and the response is an EMPTY list tagged `on-the-fly` — not
the claimed `method="fallback"` recency response, although same-category
recency items exist. -/
theorem c2_counterexample :
    (search_stage env_low shirt_target
        (category_pool env_low shirt_target (Opts.emptyDict).set_defaults)).1
      = [(shirt_low, 1/10)] ∧
    apply_business_rules [(shirt_low, (1:ℚ)/10)] shirt_target
      (Opts.emptyDict).set_defaults = [] ∧
    apply_business_rules [(shirt_low, (1:ℚ)/10)] shirt_target
      (relax_opts (Opts.emptyDict).set_defaults) = [] ∧
    (get_similar_products env_low "t" 6 Opts.emptyDict).1.method
      = some "on-the-fly" ∧
    (get_similar_products env_low "t" 6 Opts.emptyDict).1.method ≠ some "fallback" ∧
    (get_similar_products env_low "t" 6 Opts.emptyDict).1.recommendations = [] ∧
    get_fallback_products env_low.all_products shirt_target 6 = [shirt_low] := by
  refine ⟨?_, ?_, ?_, ?_, ?_, ?_, ?_⟩
  · norm_num +decide [search_stage, env_low, shirt_target, shirt_low, blank_product,
      Opts.emptyDict, Opts.set_defaults, category_pool, search_with_faiss,
      search_on_the_fly, category_matches, category_fields_of, truthy,
      get_first_image, get_product_images, strip_truthy, is_space_char, sort_desc,
      insert_before, le_score, List.filter_cons, List.filter_nil, decide_eq_true_eq,
      beq_eq_decide]
  · norm_num +decide [apply_business_rules, shirt_target, shirt_low, blank_product,
      Opts.emptyDict, Opts.set_defaults, scores_dict, dict_insert,
      filter_by_category, category_matches, category_fields_of, truthy, adjust_score,
      price_step, gender_step, usage_step, brand_step, lower_str, lower_char,
      sort_desc, insert_before, le_score, List.lookup, List.filter_cons,
      List.filter_nil, decide_eq_true_eq, beq_eq_decide]
  · norm_num +decide [apply_business_rules, shirt_target, shirt_low, blank_product,
      Opts.emptyDict, Opts.set_defaults, relax_opts, scores_dict, dict_insert,
      filter_by_category, category_matches, category_fields_of, truthy, adjust_score,
      price_step, gender_step, usage_step, brand_step, lower_str, lower_char,
      sort_desc, insert_before, le_score, List.lookup, List.filter_cons,
      List.filter_nil, decide_eq_true_eq, beq_eq_decide]
  · norm_num +decide [get_similar_products, env_low, shirt_target, shirt_low,
      blank_product, Opts.emptyDict, Opts.set_defaults, category_pool, search_stage,
      search_with_faiss, search_on_the_fly, map_indices_to_products,
      build_product_maps, get_first_image, get_product_images, strip_truthy,
      is_space_char, dict_insert, List.lookup, apply_business_rules, scores_dict,
      filter_by_category, category_matches, category_fields_of, truthy, adjust_score,
      price_step, gender_step, usage_step, brand_step, lower_str, lower_char,
      rank_and_limit, sort_desc, insert_before, le_score,
      format_recommendation_response, round4, round_half_even, relax_opts,
      get_fallback_products, le_created, List.filter_cons, List.filter_nil,
      decide_eq_true_eq, beq_eq_decide]
  · norm_num +decide [get_similar_products, env_low, shirt_target, shirt_low,
      blank_product, Opts.emptyDict, Opts.set_defaults, category_pool, search_stage,
      search_with_faiss, search_on_the_fly, map_indices_to_products,
      build_product_maps, get_first_image, get_product_images, strip_truthy,
      is_space_char, dict_insert, List.lookup, apply_business_rules, scores_dict,
      filter_by_category, category_matches, category_fields_of, truthy, adjust_score,
      price_step, gender_step, usage_step, brand_step, lower_str, lower_char,
      rank_and_limit, sort_desc, insert_before, le_score,
      format_recommendation_response, round4, round_half_even, relax_opts,
      get_fallback_products, le_created, List.filter_cons, List.filter_nil,
      decide_eq_true_eq, beq_eq_decide]
  · norm_num +decide [get_similar_products, env_low, shirt_target, shirt_low,
      blank_product, Opts.emptyDict, Opts.set_defaults, category_pool, search_stage,
      search_with_faiss, search_on_the_fly, map_indices_to_products,
      build_product_maps, get_first_image, get_product_images, strip_truthy,
      is_space_char, dict_insert, List.lookup, apply_business_rules, scores_dict,
      filter_by_category, category_matches, category_fields_of, truthy, adjust_score,
      price_step, gender_step, usage_step, brand_step, lower_str, lower_char,
      rank_and_limit, sort_desc, insert_before, le_score,
      format_recommendation_response, round4, round_half_even, relax_opts,
      get_fallback_products, le_created, List.filter_cons, List.filter_nil,
      decide_eq_true_eq, beq_eq_decide]
  · norm_num +decide [get_fallback_products, env_low, shirt_target, shirt_low,
      blank_product, category_matches, category_fields_of, truthy, sort_desc,
      insert_before, le_created, List.filter_cons, List.filter_nil,
      decide_eq_true_eq, beq_eq_decide]

/-- Claim C9 (amended): for every NON-empty caller options dict, the call
fills the missing keys in place with the defaults (`filter_gender`/
`filter_usage` true, `brand_boost` 0.05, `min_similarity` 0.6,
`price_tolerance` 0.5, `same_category_only` true) and, when the
relax-and-retry path is taken, overwrites `price_tolerance` to 1.0 and
`same_category_only` to False, all visible to the caller afterwards; an
EMPTY caller dict is falsy, so `options = options or {}` rebinds to a
fresh dict and the caller's dict is left untouched. -/
theorem c9_options_mutation :
    (∀ (env : Env) (pid : String) (limit : ℕ) (opts : Opts),
        opts ≠ Opts.emptyDict →
        ((get_similar_products env pid limit opts).2.price_tolerance.isSome = true ∧
         (get_similar_products env pid limit opts).2.same_category_only.isSome = true ∧
         (get_similar_products env pid limit opts).2.filter_gender
            = some (opts.filter_gender.getD true) ∧
         (get_similar_products env pid limit opts).2.filter_usage
            = some (opts.filter_usage.getD true) ∧
         (get_similar_products env pid limit opts).2.brand_boost
            = some (opts.brand_boost.getD (1/20)) ∧
         (get_similar_products env pid limit opts).2.min_similarity
            = some (opts.min_similarity.getD (3/5)))) ∧
    (∀ (env : Env) (pid : String) (limit : ℕ) (opts : Opts) (target : Product),
        opts ≠ Opts.emptyDict →
        env.get_product pid = some target →
        (search_stage env target (category_pool env target opts.set_defaults)).1 ≠ [] →
        apply_business_rules
            (search_stage env target (category_pool env target opts.set_defaults)).1
            target opts.set_defaults = [] →
        (get_similar_products env pid limit opts).2.price_tolerance = some 1 ∧
        (get_similar_products env pid limit opts).2.same_category_only = some false) := by
  constructor
  · intro env pid limit opts hne
    cases ht : env.get_product pid with
    | none =>
        rw [gsp_eq_notfound ht]
        simp [hne, Opts.set_defaults]
    | some target =>
        by_cases hc : (search_stage env target
            (category_pool env target opts.set_defaults)).1 = []
        · rw [gsp_eq_fallback ht hc]
          simp [hne, Opts.set_defaults]
        · by_cases hf : apply_business_rules
              (search_stage env target (category_pool env target opts.set_defaults)).1
              target opts.set_defaults = []
          · rw [gsp_eq_relaxed ht hc hf]
            simp [hne, Opts.set_defaults, relax_opts]
          · rw [gsp_eq_pass1 ht hc hf]
            simp [hne, Opts.set_defaults]
  · intro env pid limit opts target hne ht hc hf
    rw [gsp_eq_relaxed ht hc hf]
    simp [hne, relax_opts]

set_option maxHeartbeats 4000000 in
/-- Claim C9, witness: a non-empty caller dict, through the relax path,
comes back with the defaults filled and the relax overwrites visible. -/
theorem c9_options_mutation_witness :
    ({ Opts.emptyDict with filter_gender := some true } : Opts) ≠ Opts.emptyDict ∧
    env_low.get_product "t" = some shirt_target ∧
    (search_stage env_low shirt_target (category_pool env_low shirt_target
      ({ Opts.emptyDict with filter_gender := some true } : Opts).set_defaults)).1 ≠ [] ∧
    apply_business_rules
      (search_stage env_low shirt_target (category_pool env_low shirt_target
        ({ Opts.emptyDict with filter_gender := some true } : Opts).set_defaults)).1
      shirt_target ({ Opts.emptyDict with filter_gender := some true } : Opts).set_defaults
      = [] ∧
    (get_similar_products env_low "t" 6
      { Opts.emptyDict with filter_gender := some true }).2.price_tolerance = some 1 ∧
    (get_similar_products env_low "t" 6
      { Opts.emptyDict with filter_gender := some true }).2.same_category_only
      = some false ∧
    (get_similar_products env_low "t" 6
      { Opts.emptyDict with filter_gender := some true }).2.min_similarity
      = some (3/5) := by
  have hne : ({ Opts.emptyDict with filter_gender := some true } : Opts)
      ≠ Opts.emptyDict := by
    simp [Opts.emptyDict]
  have hget : env_low.get_product "t" = some shirt_target := by simp [env_low]
  have hsearch : (search_stage env_low shirt_target (category_pool env_low shirt_target
      ({ Opts.emptyDict with filter_gender := some true } : Opts).set_defaults)).1
      = [(shirt_low, 1/10)] := by
    norm_num +decide [search_stage, env_low, shirt_target, shirt_low, blank_product,
      Opts.emptyDict, Opts.set_defaults, category_pool, search_with_faiss,
      search_on_the_fly, category_matches, category_fields_of, truthy,
      get_first_image, get_product_images, strip_truthy, is_space_char, sort_desc,
      insert_before, le_score, List.filter_cons, List.filter_nil, decide_eq_true_eq,
      beq_eq_decide]
  have habr : apply_business_rules
      (search_stage env_low shirt_target (category_pool env_low shirt_target
        ({ Opts.emptyDict with filter_gender := some true } : Opts).set_defaults)).1
      shirt_target ({ Opts.emptyDict with filter_gender := some true } : Opts).set_defaults
      = [] := by
    rw [hsearch]
    norm_num +decide [apply_business_rules, shirt_target, shirt_low, blank_product,
      Opts.emptyDict, Opts.set_defaults, scores_dict, dict_insert,
      filter_by_category, category_matches, category_fields_of, truthy, adjust_score,
      price_step, gender_step, usage_step, brand_step, lower_str, lower_char,
      sort_desc, insert_before, le_score, List.lookup, List.filter_cons,
      List.filter_nil, decide_eq_true_eq, beq_eq_decide]
  have hsne : (search_stage env_low shirt_target (category_pool env_low shirt_target
      ({ Opts.emptyDict with filter_gender := some true } : Opts).set_defaults)).1
      ≠ [] := by
    rw [hsearch]
    simp
  have h2 := c9_options_mutation.2 env_low "t" 6
    { Opts.emptyDict with filter_gender := some true } shirt_target hne hget hsne habr
  have h1 := (c9_options_mutation.1 env_low "t" 6
    { Opts.emptyDict with filter_gender := some true } hne).2.2.2.2.2
  exact ⟨hne, hget, hsne, habr, h2.1, h2.2, h1⟩

set_option maxHeartbeats 4000000 in
/-- Claim C9, counterexample: an EMPTY caller options dict is not mutated
at all — after the call it still has no `min_similarity` key, though the
claim says every caller dict comes back with `min_similarity=0.6` etc. -/
theorem c9_counterexample :
    (get_similar_products env_low "t" 6 Opts.emptyDict).2 = Opts.emptyDict ∧
    (Opts.emptyDict).min_similarity = none := by
  constructor
  · have hget : env_low.get_product "t" = some shirt_target := by simp [env_low]
    by_cases hc : (search_stage env_low shirt_target
        (category_pool env_low shirt_target (Opts.emptyDict).set_defaults)).1 = []
    · rw [gsp_eq_fallback hget hc]; simp
    · by_cases hf : apply_business_rules
          (search_stage env_low shirt_target
            (category_pool env_low shirt_target (Opts.emptyDict).set_defaults)).1
          shirt_target (Opts.emptyDict).set_defaults = []
      · rw [gsp_eq_relaxed hget hc hf]; simp
      · rw [gsp_eq_pass1 hget hc hf]; simp
  · rfl

/-- Claim C10: the target product never appears in its own
recommendations — the FAISS path and the on-the-fly path both remove
candidates whose catalog id equals the target's before scoring, the
recency fallback skips the target, and consequently every recommendation
of a request differs from the target in id. -/
theorem c10_target_never_recommended :
    (∀ (env : Env) (target : Product) (pr : Product × ℚ),
        pr ∈ search_with_faiss env target → pr.1.id ≠ target.id) ∧
    (∀ (env : Env) (target : Product) (pool : Option (List Product))
        (pr : Product × ℚ),
        pr ∈ search_on_the_fly env target pool → pr.1.id ≠ target.id) ∧
    (∀ (aps : List Product) (target : Product) (limit : ℕ) (p : Product),
        p ∈ get_fallback_products aps target limit → p.id ≠ target.id) ∧
    (∀ (env : Env) (pid : String) (limit : ℕ) (opts : Opts) (target : Product)
        (r : RecEntry), env.get_product pid = some target →
        r ∈ (get_similar_products env pid limit opts).1.recommendations →
        r.product.id ≠ target.id) := by
  refine ⟨?_, ?_, ?_, ?_⟩
  · intro env target pr h; exact (search_with_faiss_mem h).1
  · intro env target pool pr h; exact (search_on_the_fly_mem h).1
  · intro aps target limit p h; exact (mem_get_fallback_products h).2.1
  · intro env pid limit opts target r ht hr
    by_cases hc : (search_stage env target
        (category_pool env target opts.set_defaults)).1 = []
    · rw [gsp_eq_fallback ht hc] at hr
      obtain ⟨pr, hpr, he⟩ := mem_format_recs hr
      obtain ⟨p, hp, he2⟩ := List.mem_map.mp hpr
      rw [he]
      have : pr.1 = p := by rw [← he2]
      rw [this]
      exact (mem_get_fallback_products hp).2.1
    · have hfromsr : ∀ pr : Product × ℚ,
          pr ∈ (search_stage env target (category_pool env target opts.set_defaults)).1 →
          pr.1.id ≠ target.id := by
        intro pr hpr
        rcases search_stage_mem hpr with h | h
        · exact (search_with_faiss_mem h).1
        · exact (search_on_the_fly_mem h).1
      have habr : ∀ (o' : Opts) (p : Product) (s : ℚ),
          (p, s) ∈ apply_business_rules
            (search_stage env target (category_pool env target opts.set_defaults)).1
            target o' → p.id ≠ target.id := by
        intro o' p s h
        have hp := (apply_business_rules_mem h).1
        obtain ⟨pr, hpr, he⟩ := List.mem_map.mp hp
        exact he ▸ hfromsr pr hpr
      by_cases hf : apply_business_rules
          (search_stage env target (category_pool env target opts.set_defaults)).1
          target opts.set_defaults = []
      · rw [gsp_eq_relaxed ht hc hf] at hr
        obtain ⟨pr, hpr, he⟩ := mem_format_recs hr
        rw [he]
        exact habr _ pr.1 pr.2 (mem_rank_and_limit hpr)
      · rw [gsp_eq_pass1 ht hc hf] at hr
        obtain ⟨pr, hpr, he⟩ := mem_format_recs hr
        rw [he]
        exact habr _ pr.1 pr.2 (mem_rank_and_limit hpr)

set_option maxHeartbeats 4000000 in
/-- Claim C10, witness: the request-level exclusion applied on a concrete
run returning one recommendation. -/
theorem c10_target_never_recommended_witness :
    env_hit.get_product "t" = some shirt_target ∧
    RecEntry.mk shirt_high (9/10) ∈
      (get_similar_products env_hit "t" 6 Opts.emptyDict).1.recommendations ∧
    (RecEntry.mk shirt_high (9/10)).product.id ≠ shirt_target.id := by
  have hget : env_hit.get_product "t" = some shirt_target := by simp [env_hit]
  have hrec : (get_similar_products env_hit "t" 6 Opts.emptyDict).1.recommendations
      = [RecEntry.mk shirt_high (9/10)] := by
    norm_num +decide [get_similar_products, env_hit, shirt_target, shirt_high,
      blank_product, Opts.emptyDict, Opts.set_defaults, category_pool, search_stage,
      search_with_faiss, search_on_the_fly, map_indices_to_products, build_product_maps,
      get_first_image, get_product_images, strip_truthy, is_space_char, dict_insert,
      List.lookup, apply_business_rules, scores_dict, filter_by_category,
      category_matches, category_fields_of, truthy, adjust_score, price_step,
      gender_step, usage_step, brand_step, lower_str, lower_char, rank_and_limit,
      sort_desc, insert_before, le_score, format_recommendation_response, round4,
      round_half_even, relax_opts, get_fallback_products, le_created,
      List.filter_cons, List.filter_nil, decide_eq_true_eq, beq_eq_decide]
  have hmem : RecEntry.mk shirt_high (9/10) ∈
      (get_similar_products env_hit "t" 6 Opts.emptyDict).1.recommendations := by
    rw [hrec]
    exact List.mem_singleton.mpr rfl
  exact ⟨hget, hmem,
    c10_target_never_recommended.2.2.2 env_hit "t" 6 Opts.emptyDict shirt_target
      (RecEntry.mk shirt_high (9/10)) hget hmem⟩

theorem agg_lookup_cons_self (a : String × ℚ × Product)
    (rest : List (String × ℚ × Product)) :
    agg_lookup (a :: rest) a.1 = some a.2.1 := by
  unfold agg_lookup
  rw [List.find?_cons_of_pos _ (by simp)]
  rfl

theorem agg_lookup_cons_ne (a : String × ℚ × Product)
    (rest : List (String × ℚ × Product)) {pid : String} (h : pid ≠ a.1) :
    agg_lookup (a :: rest) pid = agg_lookup rest pid := by
  unfold agg_lookup
  rw [List.find?_cons_of_neg _ (by simpa using Ne.symm h)]

theorem agg_lookup_insert (acc : List (String × ℚ × Product)) (k : String)
    (sim : ℚ) (p : Product) (pid : String) :
    agg_lookup (agg_insert_max acc k sim p) pid =
      if pid = k then some (opt_max (agg_lookup acc k) sim)
      else agg_lookup acc pid := by
  induction acc with
  | nil =>
      by_cases h : pid = k
      · subst h
        rw [if_pos rfl, show agg_insert_max [] pid sim p = [(pid, sim, p)] from rfl,
          show agg_lookup [(pid, sim, p)] pid = some sim from
            agg_lookup_cons_self ⟨pid, sim, p⟩ []]
        rfl
      · rw [if_neg h, show agg_insert_max [] k sim p = [(k, sim, p)] from rfl,
          agg_lookup_cons_ne ⟨k, sim, p⟩ [] h]
  | cons e rest ih =>
      by_cases hek : e.1 = k
      · rw [show agg_insert_max (e :: rest) k sim p
            = if sim > e.2.1 then (k, sim, p) :: rest else e :: rest from by
              simp [agg_insert_max, hek]]
        by_cases hpk : pid = k
        · subst hpk
          have hacc : agg_lookup (e :: rest) pid = some e.2.1 := by
            calc agg_lookup (e :: rest) pid
                = agg_lookup (e :: rest) e.1 := by rw [hek]
              _ = some e.2.1 := agg_lookup_cons_self e rest
          rw [if_pos rfl, hacc]
          by_cases hgt : sim > e.2.1
          · rw [if_pos hgt,
              show agg_lookup ((pid, sim, p) :: rest) pid = some sim from
                agg_lookup_cons_self ⟨pid, sim, p⟩ rest,
              show opt_max (some e.2.1) sim = max e.2.1 sim from rfl,
              max_eq_right (le_of_lt hgt)]
          · rw [if_neg hgt, hacc,
              show opt_max (some e.2.1) sim = max e.2.1 sim from rfl,
              max_eq_left (le_of_not_lt hgt)]
        · rw [if_neg hpk]
          by_cases hgt : sim > e.2.1
          · rw [if_pos hgt, agg_lookup_cons_ne ⟨k, sim, p⟩ rest hpk,
              agg_lookup_cons_ne e rest (by rw [hek]; exact hpk)]
          · rw [if_neg hgt]
      · rw [show agg_insert_max (e :: rest) k sim p
            = e :: agg_insert_max rest k sim p from by simp [agg_insert_max, hek]]
        by_cases hpe : pid = e.1
        · have hpk : ¬ pid = k := by rw [hpe]; exact hek
          rw [if_neg hpk]
          calc agg_lookup (e :: agg_insert_max rest k sim p) pid
              = agg_lookup (e :: agg_insert_max rest k sim p) e.1 := by rw [hpe]
            _ = some e.2.1 := agg_lookup_cons_self e _
            _ = agg_lookup (e :: rest) e.1 := (agg_lookup_cons_self e rest).symm
            _ = agg_lookup (e :: rest) pid := by rw [hpe]
        · rw [agg_lookup_cons_ne e _ hpe, ih]
          by_cases hpk : pid = k
          · rw [if_pos hpk, if_pos hpk,
              agg_lookup_cons_ne e rest (show k ≠ e.1 from fun hc => hek hc.symm)]
          · rw [if_neg hpk, if_neg hpk, agg_lookup_cons_ne e rest hpe]

theorem agg_lookup_foldl (recs : List RecEntry) {pid : String} (hpid : pid ≠ "") :
    ∀ acc : List (String × ℚ × Product),
    agg_lookup (recs.foldl agg_step acc) pid
      = (scores_for recs pid).foldl (fun o s => some (opt_max o s))
          (agg_lookup acc pid) := by
  induction recs with
  | nil => intro acc; simp [scores_for]
  | cons r rest ih =>
      intro acc
      rw [List.foldl_cons]
      by_cases hid : r.product.id = pid
      · have hskip : ¬ r.product.id = "" := by rw [hid]; exact hpid
        have hstep : agg_step acc r
            = agg_insert_max acc r.product.id r.similarity r.product := by
          simp [agg_step, hskip]
        have hsc : scores_for (r :: rest) pid = r.similarity :: scores_for rest pid := by
          simp [scores_for, List.filterMap_cons, hid]
        rw [ih, hstep, hsc, List.foldl_cons, agg_lookup_insert, hid, if_pos rfl]
      · have hsc : scores_for (r :: rest) pid = scores_for rest pid := by
          simp [scores_for, List.filterMap_cons, hid]
        rw [ih, hsc]
        by_cases hskip : r.product.id = ""
        · have hstep : agg_step acc r = acc := by simp [agg_step, hskip]
          rw [hstep]
        · have hstep : agg_step acc r
              = agg_insert_max acc r.product.id r.similarity r.product := by
            simp [agg_step, hskip]
          rw [hstep, agg_lookup_insert,
            if_neg (show ¬ pid = r.product.id from fun hc => hid hc.symm)]

theorem aggregate_seeds_flat (env : Env) (seed_ids : List String) :
    aggregate_seeds env seed_ids
      = (seed_ids.flatMap (seed_recommendations env)).foldl agg_step [] := by
  unfold aggregate_seeds
  suffices hgen : ∀ (l : List String) (acc : List (String × ℚ × Product)),
      l.foldl (fun acc sid => (seed_recommendations env sid).foldl agg_step acc) acc
        = (l.flatMap (seed_recommendations env)).foldl agg_step acc by
    exact hgen seed_ids []
  intro l
  induction l with
  | nil => intro acc; simp
  | cons a rest ih =>
      intro acc
      rw [List.foldl_cons, ih, List.flatMap_cons, List.foldl_append]

theorem agg_lookup_aggregate (env : Env) (seed_ids : List String) {pid : String}
    (hpid : pid ≠ "") :
    agg_lookup (aggregate_seeds env seed_ids) pid
      = max_score (scores_for (seed_ids.flatMap (seed_recommendations env)) pid) := by
  rw [aggregate_seeds_flat, agg_lookup_foldl _ hpid]
  rfl

/-- Claim C6 (amended): for every non-empty seed list, personalized
retrieval uses only the first 10 seeds; each seed's neighbor lookup runs
`get_similar_products` with `same_category_only=false` and
`min_similarity=0`; the per-seed streams are merged by max-reduction per
catalog id (a product id's aggregated score is the maximum of its per-seed
scores, so scores 0.6 and 0.8 aggregate to 0.8, never the 0.7 average);
the merged list is sorted by score descending and truncated to the CLAMPED
limit `max(1, min(limit, 200))` — not to the caller's raw limit. -/
theorem c6_personalized_max_aggregation :
    (∀ (env : Env) (seed_ids : List String) (limit0 : ℕ), seed_ids ≠ [] →
        retrieve_personalized env seed_ids limit0
          = retrieve_personalized env (seed_ids.take 10) limit0) ∧
    seed_opts.same_category_only = some false ∧
    seed_opts.min_similarity = some 0 ∧
    (∀ (env : Env) (sid : String), seed_recommendations env sid
        = (get_similar_products env sid 50 seed_opts).1.recommendations) ∧
    (∀ (env : Env) (seed_ids : List String) (pid : String), pid ≠ "" →
        agg_lookup (aggregate_seeds env seed_ids) pid
          = max_score (scores_for
              (seed_ids.flatMap (seed_recommendations env)) pid)) ∧
    (∀ (recs : List RecEntry) (pid : String), pid ≠ "" →
        scores_for recs pid = [3/5, 4/5] →
        agg_lookup (recs.foldl agg_step []) pid = some ((4:ℚ)/5)) ∧
    ((4:ℚ)/5 ≠ (3/5 + 4/5) / 2) ∧
    (∀ (env : Env) (seed_ids : List String),
        ((sort_desc le_agg (aggregate_seeds env seed_ids)).map
            (fun e => e.2.1)).Chain' (fun a b => b ≤ a)) ∧
    (∀ (env : Env) (seed_ids : List String) (limit0 : ℕ), seed_ids ≠ [] →
        aggregate_seeds env (seed_ids.take 10) ≠ [] →
        (retrieve_personalized env seed_ids limit0).candidates
          = ((sort_desc le_agg (aggregate_seeds env (seed_ids.take 10))).take
              (max 1 (min limit0 200))).map
              (fun e => CandidateEntry.mk e.2.2 (round4 e.2.1))) ∧
    (∀ (env : Env) (seed_ids : List String) (limit0 : ℕ), seed_ids ≠ [] →
        (retrieve_personalized env seed_ids limit0).candidates.length
          ≤ max 1 (min limit0 200)) := by
  refine ⟨?_, rfl, rfl, fun env sid => rfl,
    fun env seed_ids pid hpid => agg_lookup_aggregate env seed_ids hpid,
    ?_, by norm_num, ?_, ?_, ?_⟩
  · intro env seed_ids limit0 hne
    have h1 : seed_ids.isEmpty = false := by
      cases seed_ids with
      | nil => exact absurd rfl hne
      | cons a t => rfl
    have h2 : (seed_ids.take 10).isEmpty = false := by
      cases seed_ids with
      | nil => exact absurd rfl hne
      | cons a t => rfl
    have h3 : (seed_ids.take 10).take 10 = seed_ids.take 10 := by
      rw [List.take_take]
      norm_num
    simp only [retrieve_personalized, h1, h2, h3, Bool.false_eq_true, if_false]
  · intro recs pid hpid hsc
    have h := agg_lookup_foldl recs hpid []
    have h0 : agg_lookup ([] : List (String × ℚ × Product)) pid = none := rfl
    rw [h0, hsc] at h
    rw [h]
    simp only [List.foldl_cons, List.foldl_nil, opt_max]
    rw [max_eq_right (by norm_num : (3:ℚ)/5 ≤ 4/5)]
  · intro env seed_ids
    have htot : ∀ a b : String × ℚ × Product,
        le_agg a b = true ∨ le_agg b a = true := by
      intro a b
      simp only [le_agg, decide_eq_true_eq]
      exact le_total _ _
    have hch := chain_sort_desc htot (aggregate_seeds env seed_ids)
    rw [List.chain'_map]
    exact hch.imp (fun a b h => by simpa [le_agg] using h)
  · intro env seed_ids limit0 hne hagg
    have h1 : seed_ids.isEmpty = false := by
      cases seed_ids with
      | nil => exact absurd rfl hne
      | cons a t => rfl
    have hagg' : (aggregate_seeds env (seed_ids.take 10)).isEmpty = false := by
      cases hA : aggregate_seeds env (seed_ids.take 10) with
      | nil => exact absurd hA hagg
      | cons a t => rfl
    simp only [retrieve_personalized, h1, hagg', Bool.false_eq_true, if_false]
  · intro env seed_ids limit0 hne
    have h1 : seed_ids.isEmpty = false := by
      cases seed_ids with
      | nil => exact absurd rfl hne
      | cons a t => rfl
    simp only [retrieve_personalized, h1, Bool.false_eq_true, if_false]
    split
    · simp
    · simp only [List.length_map, List.length_take]
      exact min_le_left _ _

set_option maxHeartbeats 8000000 in
/-- Claim C6, witness: one seed on a FAISS environment with a single
neighbor at 0.9; the aggregation dict holds the neighbor at its maximal
score, the seed cap is invisible for a one-seed list, and the response is
the sorted map truncated within the clamped limit; the 0.6/0.8 scenario
aggregates to 0.8. -/
theorem c6_personalized_max_aggregation_witness :
    aggregate_seeds env_hit ["t"] = [("a", (9:ℚ)/10, shirt_high)] ∧
    agg_lookup (aggregate_seeds env_hit ["t"]) "a"
      = max_score (scores_for ((["t"] : List String).flatMap
          (seed_recommendations env_hit)) "a") ∧
    agg_lookup ([RecEntry.mk item_x (3/5), RecEntry.mk item_x (4/5)].foldl
        agg_step []) "x" = some ((4:ℚ)/5) ∧
    retrieve_personalized env_hit ["t"] 5
      = retrieve_personalized env_hit ((["t"] : List String).take 10) 5 ∧
    (retrieve_personalized env_hit ["t"] 5).candidates
      = [CandidateEntry.mk shirt_high ((9:ℚ)/10)] ∧
    (retrieve_personalized env_hit ["t"] 5).candidates.length
      ≤ max 1 (min 5 200) := by
  have hne : (["t"] : List String) ≠ [] := by simp
  have hsc : scores_for [RecEntry.mk item_x (3/5), RecEntry.mk item_x (4/5)] "x"
      = [(3:ℚ)/5, 4/5] := by
    norm_num [scores_for, item_x, blank_product, List.filterMap_cons,
      List.filterMap_nil]
  have hrec : seed_recommendations env_hit "t" = [RecEntry.mk shirt_high (9/10)] := by
    norm_num +decide [seed_recommendations, seed_opts,
      get_similar_products, env_hit, shirt_target, shirt_high,
      blank_product, Opts.emptyDict, Opts.set_defaults, category_pool, search_stage,
      search_with_faiss, search_on_the_fly, map_indices_to_products, build_product_maps,
      get_first_image, get_product_images, strip_truthy, is_space_char, dict_insert,
      List.lookup, apply_business_rules, scores_dict, filter_by_category,
      category_matches, category_fields_of, truthy, adjust_score, price_step,
      gender_step, usage_step, brand_step, lower_str, lower_char, rank_and_limit,
      sort_desc, insert_before, le_score, format_recommendation_response, round4,
      round_half_even, relax_opts, get_fallback_products, le_created,
      List.filter_cons, List.filter_nil, decide_eq_true_eq, beq_eq_decide]
  have hagg : aggregate_seeds env_hit ["t"] = [("a", (9:ℚ)/10, shirt_high)] := by
    simp only [aggregate_seeds, List.foldl_cons, List.foldl_nil, hrec]
    norm_num +decide [agg_step, agg_insert_max, shirt_high, blank_product]
  have hcand : (retrieve_personalized env_hit ["t"] 5).candidates
      = [CandidateEntry.mk shirt_high ((9:ℚ)/10)] := by
    have ht10 : (["t"] : List String).take 10 = ["t"] := rfl
    have h := c6_personalized_max_aggregation.2.2.2.2.2.2.2.2.1 env_hit ["t"] 5
      hne (by rw [ht10, hagg]; exact List.cons_ne_nil _ _)
    rw [h, ht10, hagg]
    norm_num +decide [sort_desc, insert_before, le_agg, round4, round_half_even,
      shirt_high, blank_product]
  refine ⟨hagg,
    c6_personalized_max_aggregation.2.2.2.2.1 env_hit ["t"] "a" (by decide),
    ?_,
    c6_personalized_max_aggregation.1 env_hit ["t"] 5 hne,
    hcand,
    c6_personalized_max_aggregation.2.2.2.2.2.2.2.2.2 env_hit ["t"] 5 hne⟩
  exact c6_personalized_max_aggregation.2.2.2.2.2.1
    [RecEntry.mk item_x (3/5), RecEntry.mk item_x (4/5)] "x" (by decide) hsc

set_option maxHeartbeats 4000000 in
/-- Claim C6, counterexample: the code clamps the limit to
`max(1, min(limit, 200))` before truncating, so a request with `limit=0`
still returns one candidate — the merged list is NOT truncated to the
caller's limit. -/
theorem c6_counterexample :
    (retrieve_personalized env_hit ["t"] 0).candidates
      = [CandidateEntry.mk shirt_high ((9:ℚ)/10)] ∧
    (retrieve_personalized env_hit ["t"] 0).count = 1 ∧
    ¬ ((retrieve_personalized env_hit ["t"] 0).candidates.length ≤ 0) := by
  have hrec0 : seed_recommendations env_hit "t" = [RecEntry.mk shirt_high (9/10)] := by
    norm_num +decide [seed_recommendations, seed_opts,
      get_similar_products, env_hit, shirt_target, shirt_high,
      blank_product, Opts.emptyDict, Opts.set_defaults, category_pool, search_stage,
      search_with_faiss, search_on_the_fly, map_indices_to_products, build_product_maps,
      get_first_image, get_product_images, strip_truthy, is_space_char, dict_insert,
      List.lookup, apply_business_rules, scores_dict, filter_by_category,
      category_matches, category_fields_of, truthy, adjust_score, price_step,
      gender_step, usage_step, brand_step, lower_str, lower_char, rank_and_limit,
      sort_desc, insert_before, le_score, format_recommendation_response, round4,
      round_half_even, relax_opts, get_fallback_products, le_created,
      List.filter_cons, List.filter_nil, decide_eq_true_eq, beq_eq_decide]
  have ht10 : (["t"] : List String).take 10 = ["t"] := rfl
  have hagg0 : aggregate_seeds env_hit ["t"] = [("a", (9:ℚ)/10, shirt_high)] := by
    simp only [aggregate_seeds, List.foldl_cons, List.foldl_nil, hrec0]
    norm_num +decide [agg_step, agg_insert_max, shirt_high, blank_product]
  have hval : retrieve_personalized env_hit ["t"] 0
      = PersonalResponse.mk none [CandidateEntry.mk shirt_high ((9:ℚ)/10)] 1
          (some "seeds-faiss-aggregate") := by
    simp only [retrieve_personalized, ht10, hagg0]
    norm_num +decide [sort_desc, insert_before, le_agg, round4, round_half_even,
      shirt_high, blank_product, List.filter_cons, List.filter_nil,
      decide_eq_true_eq, beq_eq_decide]
  refine ⟨by rw [hval], by rw [hval], by rw [hval]; simp⟩

end FashionRec
